import Mathlib

/-!
# Reference resolution (`pkg/reference/reference.go`)

A shallow embedding of the reference resolver of crossplane-runtime and of the
properties its specification states about it.

Conventions of the embedding.

* A Go pointer or interface value that may be `nil` is an `Option`; `none` is `nil`.
* A Go `error` result is an `Option errors.GoError`; `none` is the `nil` error.
* The data source (`client.Reader`) writes through the placeholder it is handed.
  A call is modelled by state passing: it returns the error together with what the
  placeholder holds after the call.
* `Resolve` either returns a response and an error, or panics (a call through a
  `nil` function or interface value).  Next to that outcome the embedding records
  the calls made on the data source, in order.
* The `context.Context` argument is only threaded through to the data source and
  is left out.
-/

/-! ## Collaborators from outside `pkg/reference` -/

namespace errors

/-- Error values of `github.com/pkg/errors`: `fundamental` is what `errors.New`
builds, `withMessage` is what `errors.Wrap` builds around a cause. -/
inductive GoError where
  | fundamental (msg : String)
  | withMessage (cause : GoError) (msg : String)
  deriving DecidableEq, Repr

/-- The constructor `errors.New(message)`. -/
def New (message : String) : GoError := GoError.fundamental message

/-- The constructor `errors.Wrap(err, message)` for a non-nil `err`. -/
def Wrap (err : GoError) (message : String) : GoError := GoError.withMessage err message

/-- The text of `err.Error()`. -/
def GoError.Error : GoError → String
  | GoError.fundamental msg => msg
  | GoError.withMessage cause msg => msg ++ ": " ++ cause.Error

/-- The error directly wrapped by this one, if any. -/
def GoError.Unwrap : GoError → Option GoError
  | GoError.fundamental _ => none
  | GoError.withMessage cause _ => some cause

end errors

namespace types

/-- The lookup key `types.NamespacedName`; `Resolve` only ever sets `Name`. -/
structure NamespacedName where
  Namespace : String := ""
  Name : String := ""
  deriving DecidableEq, Repr

end types

namespace v1alpha1

/-- Modelled from the spec: the declaration of `v1alpha1.Reference` is not among the
sources. A reference is a pointer by name to a managed resource; `Name` is the only
field the resolver reads or writes. -/
structure Reference where
  Name : String := ""
  deriving DecidableEq, Repr

/-- Modelled from the spec: the declaration of `v1alpha1.Selector` is not among the
sources. A selector holds label-match criteria (`MatchLabels`, a string map, here an
association list) and an optional controller-match flag (`MatchControllerRef`, a
`*bool`). -/
structure Selector where
  MatchLabels : List (String × String) := []
  MatchControllerRef : Option Bool := none
  deriving DecidableEq, Repr

end v1alpha1

namespace resource

/-- Modelled from the spec: the interface `resource.Managed` is not among the
sources. A managed resource is an object that can be referenced by name, listed and
matched against label selectors; the record keeps the object metadata the resolver
and its collaborators look at (`Controller` is the UID of the controlling owner
reference, if there is one). -/
structure Managed where
  Name : String := ""
  Labels : List (String × String) := []
  Annotations : List (String × String) := []
  DeletionTimestamp : Option Nat := none
  Controller : Option String := none
  deriving DecidableEq, Repr

/-- The accessor `GetName()` of a managed resource. -/
def Managed.GetName (mg : Managed) : String := mg.Name

/-- Modelled from the spec: the interface `resource.ManagedList` is not among the
sources. A managed list is a list object whose `GetItems()` yields the managed
resources it holds, in order. -/
structure ManagedList where
  Items : List Managed := []
  deriving DecidableEq, Repr

/-- The accessor `GetItems()` of a managed list. -/
def ManagedList.GetItems (l : ManagedList) : List Managed := l.Items

end resource

namespace client

/-- The list option `client.MatchingLabels`: the label filter handed to `List`. -/
abbrev MatchingLabels := List (String × String)

/-- The data source `client.Reader`. `Get key obj` and `List list labels` return the
error of the call and what the placeholder they were handed holds afterwards. In Go
a `nil` placeholder is still `nil` after the call; the worked inputs below respect
this, and statements over every reader cover such readers among others. -/
structure Reader where
  Get : types.NamespacedName → Option resource.Managed →
    Option errors.GoError × Option resource.Managed
  List : Option resource.ManagedList → MatchingLabels →
    Option errors.GoError × Option resource.ManagedList

/-- One operation performed on the data source. -/
inductive Call where
  | get (key : types.NamespacedName)
  | list (labels : MatchingLabels)
  deriving DecidableEq, Repr

end client

namespace metapkg

/-- Modelled from the spec: package `meta` is not among the sources. The resolver
consumes a deletion predicate `WasDeleted(resource) -> bool`, a controller-identity
equality `HaveSameController(a, b) -> bool` and the external-name accessor; they are
parameters of the embedding. -/
structure Funcs where
  WasDeleted : resource.Managed → Bool
  HaveSameController : resource.Managed → resource.Managed → Bool
  GetExternalName : Option resource.Managed → String

end metapkg

/-! ## The package `reference` -/

namespace reference

/-- Error string `errGetManaged`. -/
def errGetManaged : String := "cannot get managed resource"

/-- Error string `errListManaged`. -/
def errListManaged : String := "cannot list managed resources"

/-- Error string `errNoMatches`. -/
def errNoMatches : String := "no managed resources matched selector"

/-- Error string `errNoValue`. -/
def errNoValue : String := "referenced field was empty (reference may not yet be ready)"

/-- FromPtrValue adapts a string pointer field for use as a CurrentValue. -/
def FromPtrValue (v : Option String) : String :=
  match v with
  | none => ""
  | some s => s

/-- ToPtrValue adapts a ResolvedValue for use as a string pointer field. -/
def ToPtrValue (v : String) : Option String :=
  if v = "" then none else some v

/-- To indicates the kind of managed resource a reference is to: the placeholder for
a direct lookup and the placeholder for a listing. Either may be `nil`. -/
structure To where
  Managed : Option resource.Managed := none
  List : Option resource.ManagedList := none

/-- An ExtractValueFn specifies how to extract a value from the resolved managed
resource. Its argument is an interface value. The embedding takes an extract function
as total; a Go function may panic on a `nil` argument (`ExternalName` does, inside
package `meta`), so a statement that mentions the value of `Extract` on a placeholder
assumes that this call returns, and no statement says that `Resolve` completes when
`Extract` is handed an unset placeholder. -/
abbrev ExtractValueFn := Option resource.Managed → String

/-- ExternalName extracts the resolved managed resource's external name. -/
def ExternalName (m : metapkg.Funcs) : ExtractValueFn :=
  fun mg => m.GetExternalName mg

/-- A ResolutionRequest requests that a reference to a particular kind of managed
resource be resolved. `Extract` is a function value and may be `nil`. -/
structure ResolutionRequest where
  CurrentValue : String := ""
  Reference : Option v1alpha1.Reference := none
  Selector : Option v1alpha1.Selector := none
  To : To := {}
  Extract : Option ExtractValueFn := none

/-- IsNoOp returns true if the supplied ResolutionRequest cannot or should not be
processed. -/
def ResolutionRequest.IsNoOp (rr : ResolutionRequest) : Bool :=
  if rr.CurrentValue != "" then
    true
  else
    rr.Reference == none && rr.Selector == none

/-- A ResolutionResponse returns the result of a reference resolution. -/
structure ResolutionResponse where
  ResolvedValue : String := ""
  ResolvedReference : Option v1alpha1.Reference := none
  deriving DecidableEq, Repr

/-- Validate this ResolutionResponse. -/
def ResolutionResponse.Validate (rr : ResolutionResponse) : Option errors.GoError :=
  if rr.ResolvedValue == "" then
    some (errors.New errNoValue)
  else
    none

/-- An APIResolver selects and resolves references to managed resources in the
Kubernetes API server. The `client` is an interface value and may be `nil`. -/
structure APIResolver where
  client : Option client.Reader
  from_ : resource.Managed

/-- NewAPIResolver returns a Resolver that resolves references from the supplied
managed resource. -/
def NewAPIResolver (c : Option client.Reader) (from_ : resource.Managed) : APIResolver :=
  { client := c, from_ := from_ }

/-- ControllersMustMatch returns true if the supplied Selector requires that a
reference be to a managed resource whose controller reference matches the
referencing resource. -/
def ControllersMustMatch (s : Option v1alpha1.Selector) : Bool :=
  match s with
  | none => false
  | some s => s.MatchControllerRef != none && s.MatchControllerRef.getD false

/-- How a call of `Resolve` ends: it returns a response and an error, or it panics. -/
inductive Outcome where
  | returned (rsp : ResolutionResponse) (err : Option errors.GoError)
  | panicked
  deriving DecidableEq, Repr

/-- A finished call of `Resolve`: how it ended and the operations it performed on the
data source, in order. -/
structure Run where
  outcome : Outcome
  calls : List client.Call
  deriving DecidableEq, Repr

/-- The loop of `Resolve` over the listed candidates (`for _, to := range req.To.List.GetItems()`): a
candidate is skipped when controllers must match and it does not have the controller
of `from`; the first candidate that is not skipped is extracted, validated and
returned; when the candidates are exhausted the result is `errNoMatches`. -/
def Resolve.loop (m : metapkg.Funcs) (r : APIResolver) (req : ResolutionRequest) :
    List resource.Managed → Outcome
  | [] => Outcome.returned {} (some (errors.New errNoMatches))
  | to_ :: rest =>
    if ControllersMustMatch req.Selector && !m.HaveSameController r.from_ to_ then
      Resolve.loop m r req rest
    else
      match req.Extract with
      | none => Outcome.panicked
      | some extract =>
        let rsp : ResolutionResponse :=
          { ResolvedValue := extract (some to_),
            ResolvedReference := some { Name := to_.GetName } }
        Outcome.returned rsp rsp.Validate

/-- The skip condition of the loop of `Resolve`, named for use in statements: the
selector requires controller-match and the candidate does not have the controller of
`from`. -/
def Resolve.skips (m : metapkg.Funcs) (r : APIResolver) (req : ResolutionRequest)
    (to_ : resource.Managed) : Bool :=
  ControllersMustMatch req.Selector && !m.HaveSameController r.from_ to_

/-- Resolve the supplied ResolutionRequest. -/
def Resolve (m : metapkg.Funcs) (r : APIResolver) (req : ResolutionRequest) : Run :=
  -- Return early if from is being deleted, or the request is a no-op.
  if m.WasDeleted r.from_ || req.IsNoOp then
    { outcome := Outcome.returned
        { ResolvedValue := req.CurrentValue, ResolvedReference := req.Reference } none,
      calls := [] }
  else
    match req.Reference with
    | some ref =>
      -- The reference is already set - resolve it.
      match r.client with
      | none => { outcome := Outcome.panicked, calls := [] }
      | some c =>
        let key : types.NamespacedName := { Name := ref.Name }
        match c.Get key req.To.Managed with
        | (some err, _) =>
          { outcome := Outcome.returned {} (some (errors.Wrap err errGetManaged)),
            calls := [client.Call.get key] }
        | (none, managed) =>
          match req.Extract with
          | none => { outcome := Outcome.panicked, calls := [client.Call.get key] }
          | some extract =>
            let rsp : ResolutionResponse :=
              { ResolvedValue := extract managed, ResolvedReference := req.Reference }
            { outcome := Outcome.returned rsp rsp.Validate,
              calls := [client.Call.get key] }
    | none =>
      -- The reference was not set, but a selector was. Select a reference.
      match req.Selector with
      | none => { outcome := Outcome.panicked, calls := [] }
      | some s =>
        match r.client with
        | none => { outcome := Outcome.panicked, calls := [] }
        | some c =>
          match c.List req.To.List s.MatchLabels with
          | (some err, _) =>
            { outcome := Outcome.returned {} (some (errors.Wrap err errListManaged)),
              calls := [client.Call.list s.MatchLabels] }
          | (none, none) =>
            { outcome := Outcome.panicked, calls := [client.Call.list s.MatchLabels] }
          | (none, some list) =>
            { outcome := Resolve.loop m r req list.GetItems,
              calls := [client.Call.list s.MatchLabels] }

/-- Whether `Resolve` returns early: `from` is being deleted, or the request is a
no-op (the condition of its first `if`). -/
def Resolve.shortCircuits (m : metapkg.Funcs) (r : APIResolver) (req : ResolutionRequest) :
    Bool :=
  m.WasDeleted r.from_ || req.IsNoOp

end reference

/-! ## Worked inputs, after `reference_test.go` -/

namespace client

/-- Label selection as a data source applies it for `client.MatchingLabels`: every
requested key is among the labels of the object, with the requested value. -/
def Matches (labels : MatchingLabels) (o : resource.Managed) : Bool :=
  labels.all (fun kv => o.Labels.lookup kv.1 == some kv.2)

end client

namespace metapkg

/-- The annotation key under which the external name of a resource is kept. -/
def AnnotationKeyExternalName : String := "crossplane.io/external-name"

/-- Modelled from the spec: package `meta` is not among the sources. One instance of
its functions, for worked inputs: a resource is deleted when it carries a deletion
timestamp, two resources have the same controller when both have one and the UIDs
are equal, and the external name is the value of the external-name annotation. On
a `nil` resource the Go accessor panics; the instance is total and gives the empty
string there, and no worked input extracts from an unset placeholder. -/
def std : Funcs where
  WasDeleted := fun o => o.DeletionTimestamp.isSome
  HaveSameController := fun a b =>
    match a.Controller, b.Controller with
    | some x, some y => x == y
    | _, _ => false
  GetExternalName := fun o =>
    match o with
    | none => ""
    | some o => (o.Annotations.lookup AnnotationKeyExternalName).getD ""

end metapkg

namespace reference.fixture

/-- The error `errBoom` of the tests. -/
def errBoom : errors.GoError := errors.New "boom"

/-- The value `value` of the tests. -/
def value : String := "coolv"

/-- The reference `ref` of the tests. -/
def ref : v1alpha1.Reference := { Name := "cool" }

/-- The resource `controlled` of the tests: named `value`, with external name `value`
and a controller reference. -/
def controlled : resource.Managed :=
  { Name := value,
    Annotations := [(metapkg.AnnotationKeyExternalName, value)],
    Controller := some "very-unique" }

/-- A data source whose `Get` and `List` fail with the given error and leave the
placeholder as it was (`test.NewMockGetFn(err)`, `test.NewMockListFn(err)`). -/
def failing (err : errors.GoError) : client.Reader where
  Get := fun _ obj => (some err, obj)
  List := fun list _ => (some err, list)

/-- A data source whose `Get` succeeds and sets the external name of the object to
`v`, and whose `List` succeeds and leaves the list placeholder as it was
(`test.NewMockGetFn(nil, ...)`, `test.NewMockListFn(nil)`). -/
def serving (v : String) : client.Reader where
  Get := fun _ obj =>
    (none, obj.map (fun o => { o with Annotations := [(metapkg.AnnotationKeyExternalName, v)] }))
  List := fun list _ => (none, list)

/-- A data source whose `List` applies the label filter to the candidates it holds and
writes the matching ones, in order, into a non-nil list placeholder. -/
def filtering (candidates : List resource.Managed) : client.Reader where
  Get := fun _ obj => (none, obj)
  List := fun list labels =>
    (none, list.map (fun _ => { Items := candidates.filter (client.Matches labels) }))

/-- A label selector for worked inputs: `app` must be `db`. -/
def selector : v1alpha1.Selector := { MatchLabels := [("app", "db")] }

/-- A candidate `A` that does not carry the labels of `selector`. -/
def candidateA : resource.Managed :=
  { Name := "a", Annotations := [(metapkg.AnnotationKeyExternalName, "a-ext")] }

/-- A candidate `B` that carries the labels of `selector`. -/
def candidateB : resource.Managed :=
  { Name := "b", Labels := [("app", "db")],
    Annotations := [(metapkg.AnnotationKeyExternalName, "b-ext")] }

end reference.fixture

/-! ## The package `validation` (`pkg/validation/validator.go`, `pkg/validation/mock.go`)

A validator receives its input through a pointer (`in *T`) and may write through it;
a call is modelled by state passing, as for the data source above: it returns the
error together with the input as the call leaves it. The paved object that
`mockRequiredFieldsSchemaProps` fills is handled the same way. -/

/-- The Go type `float64`. The code only passes such values through and writes the
constant `1`; they are taken as rationals. -/
abbrev float64 := Rat

namespace strings

/-- The function `strings.Join(elems, sep)`. -/
def Join (elems : List String) (sep : String) : String := sep.intercalate elems

/-- The function `strings.TrimLeft(s, cutset)`: `s` without its leading characters
that occur in `cutset`. -/
def TrimLeft (s cutset : String) : String :=
  String.mk (s.data.dropWhile (fun c => cutset.data.contains c))

end strings

namespace fmt

/-- The error built by `fmt.Errorf`, given the formatted message. -/
def Errorf (message : String) : errors.GoError := errors.GoError.fundamental message

end fmt

namespace apiextensions

/-- The type `apiextensions.JSON`, an empty interface holding a decoded value: a
string, a number, or something else. -/
inductive JSON where
  | string (s : String)
  | float64 (x : float64)
  | other
  deriving DecidableEq, Repr

/-- The fields of `apiextensions.JSONSchemaProps` that the code reads: `Type`,
`Default` (a pointer), `Required` and `Properties`. The code only looks properties up
(`prop.Properties[s]`), and a lookup in a Go map yields the zero value for a key that
is not there, so the map is a total function; `zero` is the zero value
`JSONSchemaProps{}` (type `""`, nothing required, no properties). -/
inductive JSONSchemaProps where
  | zero
  | mk (Type_ : String) (Default : Option JSON) (Required : List String)
      (Properties : String → JSONSchemaProps)

end apiextensions

namespace fieldpath

/-- The methods of `fieldpath.Paved` that the code calls, over the state `σ` of the
paved object; package `fieldpath` is not among the sources, so they are parameters.
`SetString o path value` and `SetNumber o path value` return the error of the call and
the object as the call leaves it. -/
structure Paved (σ : Type) where
  SetString : σ → String → String → Option errors.GoError × σ
  SetNumber : σ → String → float64 → Option errors.GoError × σ

end fieldpath

namespace validation

/-- A Validator validates the supplied input. -/
structure Validator (T : Type) where
  Validate : T → Option errors.GoError × T

/-- A ValidatorFn validates the supplied input. -/
abbrev ValidatorFn (T : Type) := T → Option errors.GoError × T

/-- Validate the supplied input. -/
def ValidatorFn.Validate {T : Type} (fn : ValidatorFn T) (in_ : T) :
    Option errors.GoError × T :=
  fn in_

/-- A `ValidatorFn` as a `Validator`: it has the `Validate` method. -/
def ValidatorFn.asValidator {T : Type} (fn : ValidatorFn T) : Validator T :=
  { Validate := fun in_ => ValidatorFn.Validate fn in_ }

/-- A Chain runs multiple validations. -/
abbrev Chain (T : Type) := List (Validator T)

/-- Validate the supplied input: the loop `for _, v := range vs` with its return at
the first error. -/
def Chain.Validate {T : Type} : Chain T → T → Option errors.GoError × T
  | [], in_ => (none, in_)
  | v :: vs, in_ =>
    match v.Validate in_ with
    | (some err, out) => (some err, out)
    | (none, out) => Chain.Validate vs out

/-- The function setTypeDefaultValue sets the default value for a given type at a
given path. -/
def setTypeDefaultValue {σ : Type} (pv : fieldpath.Paved σ) (o : σ) (path : String)
    (t : String) : Option errors.GoError × σ :=
  if t = "string" then
    pv.SetString o path "default"
  else if t = "integer" then
    pv.SetNumber o path 1
  else
    (none, o)

/-- The loop `for _, s := range prop.Required` of `mockRequiredFieldsSchemaProps`, over
what it does for one name: it returns at the first error. -/
def mockRequiredFieldsSchemaProps.range {σ : Type}
    (visit : String → σ → Option errors.GoError × σ) :
    List String → σ → Option errors.GoError × σ
  | [], o => (none, o)
  | s :: rest, o =>
    match visit s o with
    | (some err, o') => (some err, o')
    | (none, o') => mockRequiredFieldsSchemaProps.range visit rest o'

/-- The path at which a required property `s` of the schema at `path` is visited. -/
def mockRequiredFieldsSchemaProps.childPath (path s : String) : String :=
  strings.TrimLeft (strings.Join [path, s] ".") "."

/-- The body of `mockRequiredFieldsSchemaProps` past its `nil` check: the `switch` on
`prop.Type`. The recursive call is made on `&p`, which is never `nil`. -/
def mockRequiredFieldsSchemaProps.switch {σ : Type} (pv : fieldpath.Paved σ) :
    apiextensions.JSONSchemaProps → σ → String → Option errors.GoError × σ
  | apiextensions.JSONSchemaProps.zero, o, _ => (none, o)
  | apiextensions.JSONSchemaProps.mk t d required properties, o, path =>
    if t = "string" then
      match d with
      | none => setTypeDefaultValue pv o path t
      | some (apiextensions.JSON.string vs) => pv.SetString o path vs
      | some _ =>
        (some (fmt.Errorf ("default value for " ++ path ++ " is not a string")), o)
    else if t = "integer" ∨ t = "number" then
      match d with
      | none => setTypeDefaultValue pv o path t
      | some (apiextensions.JSON.float64 vs) => pv.SetNumber o path vs
      | some _ =>
        (some (fmt.Errorf ("default value for " ++ path ++ " is not an integer")), o)
    else if t = "object" then
      mockRequiredFieldsSchemaProps.range
        (fun s o' => mockRequiredFieldsSchemaProps.switch pv (properties s) o'
          (mockRequiredFieldsSchemaProps.childPath path s))
        required o
    else if t = "array" then
      (none, o)
    else
      (none, o)

/-- The function mockRequiredFieldsSchemaProps mocks required fields for a given schema
property. -/
def mockRequiredFieldsSchemaProps {σ : Type} (pv : fieldpath.Paved σ)
    (prop : Option apiextensions.JSONSchemaProps) (o : σ) (path : String) :
    Option errors.GoError × σ :=
  match prop with
  | none => (none, o)
  | some p => mockRequiredFieldsSchemaProps.switch pv p o path

/-- Two schemas agree on what is required: they are equal up to the properties that
are not named in `Required`, at every depth. -/
inductive AgreeOnRequired :
    apiextensions.JSONSchemaProps → apiextensions.JSONSchemaProps → Prop where
  | zero : AgreeOnRequired apiextensions.JSONSchemaProps.zero
      apiextensions.JSONSchemaProps.zero
  | mk (t : String) (d : Option apiextensions.JSON) (required : List String)
      (properties properties' : String → apiextensions.JSONSchemaProps)
      (h : ∀ s ∈ required, AgreeOnRequired (properties s) (properties' s)) :
      AgreeOnRequired (apiextensions.JSONSchemaProps.mk t d required properties)
        (apiextensions.JSONSchemaProps.mk t d required properties')

end validation

/-! ## Worked inputs for `validation` -/

namespace validation.fixture

/-- A paved object that records the fields set on it, in order, and never fails. -/
def recording : fieldpath.Paved (List (String × apiextensions.JSON)) where
  SetString := fun o path v => (none, o ++ [(path, apiextensions.JSON.string v)])
  SetNumber := fun o path v => (none, o ++ [(path, apiextensions.JSON.float64 v)])

/-- A schema of the given type with no default, nothing required and no properties. -/
def leaf (t : String) : apiextensions.JSONSchemaProps :=
  apiextensions.JSONSchemaProps.mk t none [] (fun _ => apiextensions.JSONSchemaProps.zero)

/-- An object schema that requires `a` and `b`: `a` is a string whose default is the
number `5`, `b` is a string with no default. -/
def badDefault : apiextensions.JSONSchemaProps :=
  apiextensions.JSONSchemaProps.mk "object" none ["a", "b"] (fun s =>
    if s = "a" then
      apiextensions.JSONSchemaProps.mk "string" (some (apiextensions.JSON.float64 5)) []
        (fun _ => apiextensions.JSONSchemaProps.zero)
    else if s = "b" then leaf "string"
    else apiextensions.JSONSchemaProps.zero)

/-- An object schema that requires `a` and `b` and also has a property `c` that is not
required: `a` is a string, `b` is an object that requires the integer `n`, `c` is a
string. -/
def nested : apiextensions.JSONSchemaProps :=
  apiextensions.JSONSchemaProps.mk "object" none ["a", "b"] (fun s =>
    if s = "a" then leaf "string"
    else if s = "b" then
      apiextensions.JSONSchemaProps.mk "object" none ["n"] (fun s =>
        if s = "n" then leaf "integer" else apiextensions.JSONSchemaProps.zero)
    else if s = "c" then leaf "string"
    else apiextensions.JSONSchemaProps.zero)

/-- A validator that appends its name to the input and returns the given error. -/
def named (name : String) (err : Option errors.GoError) : Validator (List String) :=
  ValidatorFn.asValidator (fun in_ => (err, in_ ++ [name]))

end validation.fixture

/-! ## Properties of `Resolve` -/

namespace reference

/-- A request with a non-empty current value is a no-op. -/
theorem isNoOp_of_currentValue (req : ResolutionRequest) (h : req.CurrentValue ≠ "") :
    req.IsNoOp = true := by
  simp [ResolutionRequest.IsNoOp, h]

/-- A request with neither a reference nor a selector is a no-op. -/
theorem isNoOp_of_absent (req : ResolutionRequest) (hr : req.Reference = none)
    (hs : req.Selector = none) : req.IsNoOp = true := by
  simp [ResolutionRequest.IsNoOp, hr, hs]

/-- A request that is not a no-op has an empty current value. -/
theorem currentValue_of_not_isNoOp (req : ResolutionRequest) (h : req.IsNoOp = false) :
    req.CurrentValue = "" := by
  by_contra hc
  rw [isNoOp_of_currentValue req hc] at h
  exact Bool.noConfusion h

/-- With an empty current value and a reference or a selector set, the request is not
a no-op. -/
theorem not_isNoOp_of_reference (req : ResolutionRequest) (hv : req.CurrentValue = "")
    (ref : v1alpha1.Reference) (hr : req.Reference = some ref) : req.IsNoOp = false := by
  simp [ResolutionRequest.IsNoOp, hv, hr]

/-- With an empty current value and a selector set, the request is not a no-op. -/
theorem not_isNoOp_of_selector (req : ResolutionRequest) (hv : req.CurrentValue = "")
    (s : v1alpha1.Selector) (hs : req.Selector = some s) : req.IsNoOp = false := by
  simp [ResolutionRequest.IsNoOp, hv, hs]

/-- The early return of `Resolve`. -/
theorem resolve_early (m : metapkg.Funcs) (r : APIResolver) (req : ResolutionRequest)
    (h : (m.WasDeleted r.from_ || req.IsNoOp) = true) :
    Resolve m r req =
      { outcome := Outcome.returned
          { ResolvedValue := req.CurrentValue, ResolvedReference := req.Reference } none,
        calls := [] } := by
  unfold Resolve
  rw [if_pos h]

/-- Validation fails exactly on an empty resolved value. -/
theorem validate_eq_none_iff (rsp : ResolutionResponse) :
    rsp.Validate = none ↔ rsp.ResolvedValue ≠ "" := by
  unfold ResolutionResponse.Validate
  by_cases h : rsp.ResolvedValue = "" <;> simp [h]

/-- The loop skips a whole list of candidates that all fail the filter. -/
theorem loop_all_skipped (m : metapkg.Funcs) (r : APIResolver) (req : ResolutionRequest)
    (items : List resource.Managed) (h : ∀ x ∈ items, Resolve.skips m r req x = true) :
    Resolve.loop m r req items = Outcome.returned {} (some (errors.New errNoMatches)) := by
  induction items with
  | nil => rfl
  | cons x rest ih =>
    have hx : (ControllersMustMatch req.Selector && !m.HaveSameController r.from_ x) = true :=
      h x (List.mem_cons_self x rest)
    unfold Resolve.loop
    rw [if_pos hx]
    exact ih (fun y hy => h y (List.mem_cons_of_mem x hy))

/-- The loop passes over a prefix of skipped candidates. -/
theorem loop_skip_append (m : metapkg.Funcs) (r : APIResolver) (req : ResolutionRequest)
    (pre rest : List resource.Managed) (h : ∀ x ∈ pre, Resolve.skips m r req x = true) :
    Resolve.loop m r req (pre ++ rest) = Resolve.loop m r req rest := by
  induction pre with
  | nil => rfl
  | cons x pre ih =>
    have hx : (ControllersMustMatch req.Selector && !m.HaveSameController r.from_ x) = true :=
      h x (List.mem_cons_self x pre)
    rw [List.cons_append]
    conv_lhs => unfold Resolve.loop
    rw [if_pos hx]
    exact ih (fun y hy => h y (List.mem_cons_of_mem x hy))

/-- The loop stops at a candidate that is not skipped. -/
theorem loop_cons_selected (m : metapkg.Funcs) (r : APIResolver) (req : ResolutionRequest)
    (x : resource.Managed) (rest : List resource.Managed) (extract : ExtractValueFn)
    (hx : Resolve.skips m r req x = false) (he : req.Extract = some extract) :
    Resolve.loop m r req (x :: rest) =
      Outcome.returned
        { ResolvedValue := extract (some x), ResolvedReference := some { Name := x.GetName } }
        (ResolutionResponse.Validate
          { ResolvedValue := extract (some x),
            ResolvedReference := some { Name := x.GetName } }) := by
  have hx' : ¬ ((ControllersMustMatch req.Selector && !m.HaveSameController r.from_ x) = true) := by
    intro hc
    have : Resolve.skips m r req x = true := hc
    rw [hx] at this
    exact Bool.noConfusion this
  unfold Resolve.loop
  rw [if_neg hx', he]

/-- A request that is not returned early has `from` not deleted and is not a no-op. -/
theorem not_early_iff (m : metapkg.Funcs) (r : APIResolver) (req : ResolutionRequest) :
    (m.WasDeleted r.from_ || req.IsNoOp) = false ↔
      m.WasDeleted r.from_ = false ∧ req.IsNoOp = false := by
  cases m.WasDeleted r.from_ <;> cases req.IsNoOp <;> simp

/-- The direct path when `Get` fails. -/
theorem resolve_get_failed (m : metapkg.Funcs) (r : APIResolver) (req : ResolutionRequest)
    (ref : v1alpha1.Reference) (c : client.Reader) (err : errors.GoError)
    (obj : Option resource.Managed)
    (hd : m.WasDeleted r.from_ = false) (hv : req.CurrentValue = "")
    (hr : req.Reference = some ref) (hc : r.client = some c)
    (hg : c.Get { Name := ref.Name } req.To.Managed = (some err, obj)) :
    Resolve m r req =
      { outcome := Outcome.returned {} (some (errors.Wrap err errGetManaged)),
        calls := [client.Call.get { Name := ref.Name }] } := by
  have hn := not_isNoOp_of_reference req hv ref hr
  simp [Resolve, hd, hn, hr, hc, hg]

/-- The direct path when `Get` succeeds. -/
theorem resolve_get_ok (m : metapkg.Funcs) (r : APIResolver) (req : ResolutionRequest)
    (ref : v1alpha1.Reference) (c : client.Reader) (obj : Option resource.Managed)
    (extract : ExtractValueFn)
    (hd : m.WasDeleted r.from_ = false) (hv : req.CurrentValue = "")
    (hr : req.Reference = some ref) (hc : r.client = some c)
    (hg : c.Get { Name := ref.Name } req.To.Managed = (none, obj))
    (he : req.Extract = some extract) :
    Resolve m r req =
      { outcome := Outcome.returned
          { ResolvedValue := extract obj, ResolvedReference := some ref }
          (ResolutionResponse.Validate
            { ResolvedValue := extract obj, ResolvedReference := some ref }),
        calls := [client.Call.get { Name := ref.Name }] } := by
  have hn := not_isNoOp_of_reference req hv ref hr
  simp [Resolve, hd, hn, hr, hc, hg, he]

/-- The selector path when `List` fails. -/
theorem resolve_list_failed (m : metapkg.Funcs) (r : APIResolver) (req : ResolutionRequest)
    (s : v1alpha1.Selector) (c : client.Reader) (err : errors.GoError)
    (list : Option resource.ManagedList)
    (hd : m.WasDeleted r.from_ = false) (hv : req.CurrentValue = "")
    (hr : req.Reference = none) (hs : req.Selector = some s) (hc : r.client = some c)
    (hl : c.List req.To.List s.MatchLabels = (some err, list)) :
    Resolve m r req =
      { outcome := Outcome.returned {} (some (errors.Wrap err errListManaged)),
        calls := [client.Call.list s.MatchLabels] } := by
  have hn := not_isNoOp_of_selector req hv s hs
  simp [Resolve, hd, hn, hr, hs, hc, hl]

/-- The selector path when `List` succeeds: the loop runs over the listed items. -/
theorem resolve_list_ok (m : metapkg.Funcs) (r : APIResolver) (req : ResolutionRequest)
    (s : v1alpha1.Selector) (c : client.Reader) (list : resource.ManagedList)
    (hd : m.WasDeleted r.from_ = false) (hv : req.CurrentValue = "")
    (hr : req.Reference = none) (hs : req.Selector = some s) (hc : r.client = some c)
    (hl : c.List req.To.List s.MatchLabels = (none, some list)) :
    Resolve m r req =
      { outcome := Resolve.loop m r req list.GetItems,
        calls := [client.Call.list s.MatchLabels] } := by
  have hn := not_isNoOp_of_selector req hv s hs
  simp [Resolve, hd, hn, hr, hs, hc, hl]

/-- The loop returns no error only with a non-empty resolved value. -/
theorem loop_noError_valid (m : metapkg.Funcs) (r : APIResolver) (req : ResolutionRequest)
    (items : List resource.Managed) (rsp : ResolutionResponse)
    (h : Resolve.loop m r req items = Outcome.returned rsp none) : rsp.Validate = none := by
  induction items with
  | nil => simp [Resolve.loop] at h
  | cons x rest ih =>
    unfold Resolve.loop at h
    split at h
    · exact ih h
    · split at h
      · exact Outcome.noConfusion h
      · simp only [Outcome.returned.injEq] at h
        rw [← h.1]
        exact h.2

/-- Past the early return, `Resolve` returns no error only with a valid response. -/
theorem resolve_noError_valid_of_not_early (m : metapkg.Funcs) (r : APIResolver)
    (req : ResolutionRequest) (rsp : ResolutionResponse)
    (hne : (m.WasDeleted r.from_ || req.IsNoOp) = false)
    (h : (Resolve m r req).outcome = Outcome.returned rsp none) : rsp.Validate = none := by
  unfold Resolve at h
  rw [if_neg (by rw [hne]; exact Bool.false_ne_true)] at h
  cases hr : req.Reference with
  | some ref =>
    cases hc : r.client with
    | none => simp [hr, hc] at h
    | some c =>
      rcases hg : c.Get { Name := ref.Name } req.To.Managed with ⟨e, obj⟩
      cases e with
      | some err => simp [hr, hc, hg] at h
      | none =>
        cases he : req.Extract with
        | none => simp [hr, hc, hg, he] at h
        | some extract =>
          simp only [hr, hc, hg, he, Outcome.returned.injEq] at h
          rw [← h.1]
          exact h.2
  | none =>
    cases hs : req.Selector with
    | none => simp [hr, hs] at h
    | some s =>
      cases hc : r.client with
      | none => simp [hr, hs, hc] at h
      | some c =>
        rcases hl : c.List req.To.List s.MatchLabels with ⟨e, list⟩
        cases e with
        | some err => simp [hr, hs, hc, hl] at h
        | none =>
          cases list with
          | none => simp [hr, hs, hc, hl] at h
          | some l =>
            simp only [hr, hs, hc, hl] at h
            exact loop_noError_valid m r req _ rsp h

/-- C1, as the code has it: when `Resolve` returns no error, the response is valid
(its `ResolvedValue` is non-empty and `Validate` returns no error) exactly when the
call was not an early return with an empty `CurrentValue`. -/
theorem Resolve_noError_valid_iff (m : metapkg.Funcs) (r : APIResolver)
    (req : ResolutionRequest) (rsp : ResolutionResponse)
    (h : (Resolve m r req).outcome = Outcome.returned rsp none) :
    (rsp.Validate = none ∧ rsp.ResolvedValue ≠ "") ↔
      ¬ (Resolve.shortCircuits m r req = true ∧ req.CurrentValue = "") := by
  cases hsc : Resolve.shortCircuits m r req with
  | true =>
    rw [resolve_early m r req hsc] at h
    simp only [Outcome.returned.injEq, and_true] at h
    subst h
    simp [validate_eq_none_iff]
  | false =>
    have hv := resolve_noError_valid_of_not_early m r req rsp hsc h
    have hv' := (validate_eq_none_iff rsp).1 hv
    simp [hv, hv']

/-- C1 fails as stated: for a request with no current value, no reference and no
selector (the test case `Unresolvable`), `Resolve` returns no error and the empty
response, which `Validate` rejects. -/
theorem Resolve_noError_valid_counterexample :
    (Resolve metapkg.std (NewAPIResolver none {}) {}).outcome = Outcome.returned {} none ∧
      ResolutionResponse.Validate {} = some (errors.New errNoValue) := by
  decide

/-- An instance of C1 as the code has it: the direct path of the test case
`SuccessfulResolve` returns no error, was not an early return, and its response is
valid. -/
theorem Resolve_noError_valid_iff_witness :
    (Resolve metapkg.std (NewAPIResolver (some (fixture.serving fixture.value)) {})
        { Reference := some fixture.ref, To := { Managed := some {} },
          Extract := some (ExternalName metapkg.std) }).outcome =
      Outcome.returned { ResolvedValue := "coolv", ResolvedReference := some fixture.ref } none ∧
    ((ResolutionResponse.Validate
        { ResolvedValue := "coolv", ResolvedReference := some fixture.ref } = none ∧
      ({ ResolvedValue := "coolv", ResolvedReference := some fixture.ref } :
        ResolutionResponse).ResolvedValue ≠ "") ↔
      ¬ (Resolve.shortCircuits metapkg.std
          (NewAPIResolver (some (fixture.serving fixture.value)) {})
          { Reference := some fixture.ref, To := { Managed := some {} },
            Extract := some (ExternalName metapkg.std) } = true ∧
        ({ Reference := some fixture.ref, To := { Managed := some {} },
            Extract := some (ExternalName metapkg.std) } : ResolutionRequest).CurrentValue = "")) :=
  ⟨by decide, Resolve_noError_valid_iff _ _ _ _ (by decide)⟩

/-- C2: a request whose `CurrentValue` is non-empty gets that value back as
`ResolvedValue`, with no error, whatever its `Reference` and `Selector`, the state of
the referencing resource and the data source. -/
theorem Resolve_currentValue_kept (m : metapkg.Funcs) (r : APIResolver)
    (req : ResolutionRequest) (h : req.CurrentValue ≠ "") :
    ∃ rsp, (Resolve m r req).outcome = Outcome.returned rsp none ∧
      rsp.ResolvedValue = req.CurrentValue := by
  have hn : (m.WasDeleted r.from_ || req.IsNoOp) = true := by
    rw [isNoOp_of_currentValue req h, Bool.or_true]
  rw [resolve_early m r req hn]
  exact ⟨_, rfl, rfl⟩

/-- An instance of C2: the test case `AlreadyResolved`, here with a reference, a
selector and a failing data source as well. -/
theorem Resolve_currentValue_kept_witness :
    ({ CurrentValue := "coolv", Reference := some fixture.ref, Selector := some {} } :
        ResolutionRequest).CurrentValue ≠ "" ∧
    ∃ rsp, (Resolve metapkg.std (NewAPIResolver (some (fixture.failing fixture.errBoom)) {})
        { CurrentValue := "coolv", Reference := some fixture.ref,
          Selector := some {} }).outcome = Outcome.returned rsp none ∧
      rsp.ResolvedValue =
        ({ CurrentValue := "coolv", Reference := some fixture.ref, Selector := some {} } :
          ResolutionRequest).CurrentValue :=
  ⟨by decide, Resolve_currentValue_kept _ _ _ (by decide)⟩

/-- C3, as the code has it: a request with neither `Reference` nor `Selector` gets
the response with `ResolvedValue` equal to `CurrentValue` and no `ResolvedReference`,
with no error and no call on the data source; that is the empty response when
`CurrentValue` is empty. -/
theorem Resolve_unresolvable (m : metapkg.Funcs) (r : APIResolver) (req : ResolutionRequest)
    (hr : req.Reference = none) (hs : req.Selector = none) :
    Resolve m r req =
        { outcome := Outcome.returned
            { ResolvedValue := req.CurrentValue, ResolvedReference := none } none,
          calls := [] } ∧
      (req.CurrentValue = "" → (Resolve m r req).outcome = Outcome.returned {} none) := by
  have hn : (m.WasDeleted r.from_ || req.IsNoOp) = true := by
    rw [isNoOp_of_absent req hr hs, Bool.or_true]
  rw [resolve_early m r req hn, hr]
  refine ⟨rfl, fun hv => ?_⟩
  rw [hv]

/-- C3 fails as stated: with neither reference nor selector but the current value
`coolv` (the test case `AlreadyResolved`), `Resolve` returns the response holding
`coolv`, not the empty response. -/
theorem Resolve_unresolvable_counterexample :
    ({ CurrentValue := "coolv" } : ResolutionRequest).Reference = none ∧
    ({ CurrentValue := "coolv" } : ResolutionRequest).Selector = none ∧
    (Resolve metapkg.std (NewAPIResolver none {}) { CurrentValue := "coolv" }).outcome =
      Outcome.returned { ResolvedValue := "coolv", ResolvedReference := none } none ∧
    (Resolve metapkg.std (NewAPIResolver none {}) { CurrentValue := "coolv" }).outcome ≠
      Outcome.returned {} none := by
  decide

/-- An instance of C3 as the code has it: the test case `Unresolvable`. -/
theorem Resolve_unresolvable_witness :
    Resolve metapkg.std (NewAPIResolver none {}) {} =
        { outcome := Outcome.returned { ResolvedValue := "", ResolvedReference := none } none,
          calls := [] } ∧
      (({} : ResolutionRequest).CurrentValue = "" →
        (Resolve metapkg.std (NewAPIResolver none {}) {}).outcome = Outcome.returned {} none) :=
  Resolve_unresolvable metapkg.std (NewAPIResolver none {}) {} rfl rfl

/-- C4: when the referencing resource is deleted or the request is a no-op, `Resolve`
returns exactly the response with `ResolvedValue` equal to `CurrentValue` and
`ResolvedReference` equal to `Reference`, with no error, and performs no call on the
data source. -/
theorem Resolve_shortCircuit (m : metapkg.Funcs) (r : APIResolver) (req : ResolutionRequest)
    (h : m.WasDeleted r.from_ = true ∨ req.IsNoOp = true) :
    Resolve m r req =
      { outcome := Outcome.returned
          { ResolvedValue := req.CurrentValue, ResolvedReference := req.Reference } none,
        calls := [] } := by
  apply resolve_early
  rcases h with h | h <;> simp [h]

/-- An instance of C4: a deleted referencing resource (the test case `FromDeleted`),
here with a reference set and a data source that would fail. -/
theorem Resolve_shortCircuit_witness :
    (metapkg.std.WasDeleted
        (NewAPIResolver (some (fixture.failing fixture.errBoom))
          { DeletionTimestamp := some 1 }).from_ = true ∨
      ResolutionRequest.IsNoOp { Reference := some fixture.ref } = true) ∧
    Resolve metapkg.std
        (NewAPIResolver (some (fixture.failing fixture.errBoom)) { DeletionTimestamp := some 1 })
        { Reference := some fixture.ref } =
      { outcome := Outcome.returned
          { ResolvedValue := "", ResolvedReference := some fixture.ref } none,
        calls := [] } :=
  ⟨by decide, Resolve_shortCircuit _ _ _ (by decide)⟩

/-- C5: on the direct path (referencing resource not deleted, `CurrentValue` empty,
`Reference` set), when `Get` succeeds for the name of the reference and `Extract` of
the fetched target is a non-empty string `v`, `Resolve` returns `v` with the
reference of the request unchanged and no error; `Get` is the one call made, with the
name of the reference. -/
theorem Resolve_direct_success (m : metapkg.Funcs) (r : APIResolver)
    (req : ResolutionRequest) (ref : v1alpha1.Reference) (c : client.Reader)
    (obj : Option resource.Managed) (extract : ExtractValueFn) (v : String)
    (hd : m.WasDeleted r.from_ = false) (hv : req.CurrentValue = "")
    (hr : req.Reference = some ref) (hc : r.client = some c)
    (hg : c.Get { Name := ref.Name } req.To.Managed = (none, obj))
    (he : req.Extract = some extract) (hx : extract obj = v) (hne : v ≠ "") :
    Resolve m r req =
      { outcome := Outcome.returned { ResolvedValue := v, ResolvedReference := req.Reference } none,
        calls := [client.Call.get { Name := ref.Name }] } := by
  rw [resolve_get_ok m r req ref c obj extract hd hv hr hc hg he, hx, hr]
  have hval : ResolutionResponse.Validate
      { ResolvedValue := v, ResolvedReference := some ref } = none :=
    (validate_eq_none_iff _).2 hne
  rw [hval]

/-- An instance of C5: the test case `SuccessfulResolve`. -/
theorem Resolve_direct_success_witness :
    Resolve metapkg.std (NewAPIResolver (some (fixture.serving fixture.value)) {})
        { Reference := some fixture.ref, To := { Managed := some {} },
          Extract := some (ExternalName metapkg.std) } =
      { outcome := Outcome.returned
          { ResolvedValue := "coolv", ResolvedReference := some { Name := "cool" } } none,
        calls := [client.Call.get { Name := "cool" }] } :=
  Resolve_direct_success metapkg.std (NewAPIResolver (some (fixture.serving fixture.value)) {})
    { Reference := some fixture.ref, To := { Managed := some {} },
      Extract := some (ExternalName metapkg.std) }
    fixture.ref (fixture.serving fixture.value)
    (some { Annotations := [(metapkg.AnnotationKeyExternalName, fixture.value)] })
    (ExternalName metapkg.std) "coolv"
    (by decide) (by decide) rfl rfl rfl rfl (by decide) (by decide)

/-- C6: on the direct path, when `Get` fails with error `E`, `Resolve` returns the
empty response and the error that wraps `E` with the message
`cannot get managed resource`. -/
theorem Resolve_get_error (m : metapkg.Funcs) (r : APIResolver) (req : ResolutionRequest)
    (ref : v1alpha1.Reference) (c : client.Reader) (E : errors.GoError)
    (obj : Option resource.Managed)
    (hd : m.WasDeleted r.from_ = false) (hv : req.CurrentValue = "")
    (hr : req.Reference = some ref) (hc : r.client = some c)
    (hg : c.Get { Name := ref.Name } req.To.Managed = (some E, obj)) :
    ∃ err, (Resolve m r req).outcome = Outcome.returned {} (some err) ∧
      err = errors.Wrap E "cannot get managed resource" ∧
      err.Unwrap = some E ∧
      err.Error = "cannot get managed resource: " ++ E.Error := by
  rw [resolve_get_failed m r req ref c E obj hd hv hr hc hg]
  refine ⟨errors.Wrap E errGetManaged, rfl, rfl, rfl, ?_⟩
  simp [errors.Wrap, errors.GoError.Error, errGetManaged, String.append_assoc]

/-- An instance of C6: the test case `GetError`. -/
theorem Resolve_get_error_witness :
    ∃ err, (Resolve metapkg.std (NewAPIResolver (some (fixture.failing fixture.errBoom)) {})
        { Reference := some fixture.ref, To := { Managed := some {} },
          Extract := some (ExternalName metapkg.std) }).outcome =
        Outcome.returned {} (some err) ∧
      err = errors.Wrap fixture.errBoom "cannot get managed resource" ∧
      err.Unwrap = some fixture.errBoom ∧
      err.Error = "cannot get managed resource: " ++ fixture.errBoom.Error :=
  Resolve_get_error metapkg.std (NewAPIResolver (some (fixture.failing fixture.errBoom)) {})
    { Reference := some fixture.ref, To := { Managed := some {} },
      Extract := some (ExternalName metapkg.std) }
    fixture.ref (fixture.failing fixture.errBoom) fixture.errBoom (some {})
    (by decide) (by decide) rfl rfl rfl

/-- C7: on the selector path (referencing resource not deleted, `CurrentValue` empty,
`Reference` absent, `Selector` set), when `List` fails with error `E`, `Resolve`
returns the empty response and the error that wraps `E` with the message
`cannot list managed resources`. -/
theorem Resolve_list_error (m : metapkg.Funcs) (r : APIResolver) (req : ResolutionRequest)
    (s : v1alpha1.Selector) (c : client.Reader) (E : errors.GoError)
    (list : Option resource.ManagedList)
    (hd : m.WasDeleted r.from_ = false) (hv : req.CurrentValue = "")
    (hr : req.Reference = none) (hs : req.Selector = some s) (hc : r.client = some c)
    (hl : c.List req.To.List s.MatchLabels = (some E, list)) :
    ∃ err, (Resolve m r req).outcome = Outcome.returned {} (some err) ∧
      err = errors.Wrap E "cannot list managed resources" ∧
      err.Unwrap = some E ∧
      err.Error = "cannot list managed resources: " ++ E.Error := by
  rw [resolve_list_failed m r req s c E list hd hv hr hs hc hl]
  refine ⟨errors.Wrap E errListManaged, rfl, rfl, rfl, ?_⟩
  simp [errors.Wrap, errors.GoError.Error, errListManaged, String.append_assoc]

/-- An instance of C7: the test case `ListError`, whose request leaves the
placeholders and `Extract` unset. -/
theorem Resolve_list_error_witness :
    ∃ err, (Resolve metapkg.std (NewAPIResolver (some (fixture.failing fixture.errBoom)) {})
        { Selector := some {} }).outcome = Outcome.returned {} (some err) ∧
      err = errors.Wrap fixture.errBoom "cannot list managed resources" ∧
      err.Unwrap = some fixture.errBoom ∧
      err.Error = "cannot list managed resources: " ++ fixture.errBoom.Error :=
  Resolve_list_error metapkg.std (NewAPIResolver (some (fixture.failing fixture.errBoom)) {})
    { Selector := some {} } {} (fixture.failing fixture.errBoom) fixture.errBoom none
    (by decide) (by decide) rfl rfl rfl rfl

/-- Validation never yields the `errNoMatches` error. -/
theorem validate_ne_noMatches (rsp : ResolutionResponse) :
    rsp.Validate ≠ some (errors.New errNoMatches) := by
  unfold ResolutionResponse.Validate
  split
  · intro h
    have hs : errNoValue = errNoMatches := by
      simpa [errors.New] using h
    exact absurd hs (by decide)
  · intro h
    exact Option.noConfusion h

/-- The loop ends with `errNoMatches` only with the empty response and after skipping
every candidate. -/
theorem loop_noMatches_inv (m : metapkg.Funcs) (r : APIResolver) (req : ResolutionRequest)
    (items : List resource.Managed) (rsp : ResolutionResponse)
    (h : Resolve.loop m r req items = Outcome.returned rsp (some (errors.New errNoMatches))) :
    rsp = {} ∧ ∀ x ∈ items, Resolve.skips m r req x = true := by
  induction items with
  | nil =>
    simp only [Resolve.loop, Outcome.returned.injEq] at h
    exact ⟨h.1.symm, fun x hx => absurd hx (List.not_mem_nil x)⟩
  | cons x rest ih =>
    unfold Resolve.loop at h
    split at h
    · rename_i hx
      obtain ⟨h1, h2⟩ := ih h
      refine ⟨h1, fun y hy => ?_⟩
      rcases List.mem_cons.1 hy with rfl | hy
      · exact hx
      · exact h2 y hy
    · split at h
      · exact Outcome.noConfusion h
      · simp only [Outcome.returned.injEq] at h
        exact absurd h.2 (validate_ne_noMatches _)

/-- C8: on the selector path, when `List` (called with the `MatchLabels` of the
selector) succeeds, `Resolve` selects the first listed candidate that is not skipped
(a candidate is skipped when the selector requires controller-match and the candidate
does not have the controller of the referencing resource): with every earlier
candidate skipped and the extracted value `v` of that candidate non-empty, it returns
`v` and a new reference named after the candidate, with no error. -/
theorem Resolve_select_first (m : metapkg.Funcs) (r : APIResolver) (req : ResolutionRequest)
    (s : v1alpha1.Selector) (c : client.Reader) (list : resource.ManagedList)
    (pre : List resource.Managed) (cand : resource.Managed) (post : List resource.Managed)
    (extract : ExtractValueFn) (v : String)
    (hd : m.WasDeleted r.from_ = false) (hv : req.CurrentValue = "")
    (hr : req.Reference = none) (hs : req.Selector = some s) (hc : r.client = some c)
    (hl : c.List req.To.List s.MatchLabels = (none, some list))
    (hitems : list.GetItems = pre ++ cand :: post)
    (hpre : ∀ x ∈ pre, Resolve.skips m r req x = true)
    (hcand : Resolve.skips m r req cand = false)
    (he : req.Extract = some extract) (hx : extract (some cand) = v) (hne : v ≠ "") :
    Resolve m r req =
      { outcome := Outcome.returned
          { ResolvedValue := v, ResolvedReference := some { Name := cand.GetName } } none,
        calls := [client.Call.list s.MatchLabels] } := by
  rw [resolve_list_ok m r req s c list hd hv hr hs hc hl, hitems,
    loop_skip_append m r req pre (cand :: post) hpre,
    loop_cons_selected m r req cand post extract hcand he, hx]
  have hval : ResolutionResponse.Validate
      { ResolvedValue := v, ResolvedReference := some { Name := cand.GetName } } = none :=
    (validate_eq_none_iff _).2 hne
  rw [hval]

/-- An instance of C8: the test case `SuccessfulSelect`. Controller-match is required,
the first candidate has no controller and is skipped, the second is `controlled`,
which is also the referencing resource, and is returned. -/
theorem Resolve_select_first_witness :
    Resolve.skips metapkg.std (NewAPIResolver (some (fixture.serving "")) fixture.controlled)
        { Selector := some { MatchControllerRef := some true },
          To := { List := some { Items := [{}, fixture.controlled] } },
          Extract := some (ExternalName metapkg.std) } {} = true ∧
    Resolve metapkg.std (NewAPIResolver (some (fixture.serving "")) fixture.controlled)
        { Selector := some { MatchControllerRef := some true },
          To := { List := some { Items := [{}, fixture.controlled] } },
          Extract := some (ExternalName metapkg.std) } =
      { outcome := Outcome.returned
          { ResolvedValue := "coolv", ResolvedReference := some { Name := "coolv" } } none,
        calls := [client.Call.list []] } :=
  ⟨by decide,
    Resolve_select_first metapkg.std
      (NewAPIResolver (some (fixture.serving "")) fixture.controlled)
      { Selector := some { MatchControllerRef := some true },
        To := { List := some { Items := [{}, fixture.controlled] } },
        Extract := some (ExternalName metapkg.std) }
      { MatchControllerRef := some true } (fixture.serving "")
      { Items := [{}, fixture.controlled] } [{}] fixture.controlled []
      (ExternalName metapkg.std) "coolv"
      (by decide) (by decide) rfl rfl rfl rfl rfl (by decide) (by decide) rfl (by decide)
      (by decide)⟩

/-- C9, as the code has it: on the selector path with controller-match not required,
given candidates `A` and `B` where `A` does not match the labels of the selector and
`B` does, and a data source whose `List` applies the label filter to them, `Resolve`
returns the extracted value of `B` and a new reference named after `B` (validated as
every response is). -/
theorem Resolve_select_filtered (m : metapkg.Funcs) (r : APIResolver)
    (req : ResolutionRequest) (s : v1alpha1.Selector) (c : client.Reader)
    (A B : resource.Managed) (extract : ExtractValueFn)
    (hd : m.WasDeleted r.from_ = false) (hv : req.CurrentValue = "")
    (hr : req.Reference = none) (hs : req.Selector = some s) (hc : r.client = some c)
    (hm : ControllersMustMatch req.Selector = false)
    (hA : client.Matches s.MatchLabels A = false)
    (hB : client.Matches s.MatchLabels B = true)
    (hl : c.List req.To.List s.MatchLabels =
      (none, some { Items := [A, B].filter (client.Matches s.MatchLabels) }))
    (he : req.Extract = some extract) :
    Resolve m r req =
      { outcome := Outcome.returned
          { ResolvedValue := extract (some B), ResolvedReference := some { Name := B.GetName } }
          (ResolutionResponse.Validate
            { ResolvedValue := extract (some B),
              ResolvedReference := some { Name := B.GetName } }),
        calls := [client.Call.list s.MatchLabels] } := by
  have hf : [A, B].filter (client.Matches s.MatchLabels) = [B] := by
    simp [List.filter, hA, hB]
  have hskip : Resolve.skips m r req B = false := by
    simp [Resolve.skips, hm]
  rw [resolve_list_ok m r req s c _ hd hv hr hs hc hl]
  simp only [resource.ManagedList.GetItems, hf]
  rw [loop_cons_selected m r req B [] extract hskip he]

/-- C9 fails as stated: `Resolve` does not filter by labels itself. With
controller-match not required and a data source that lists `[A, B]` as they are
(the mock of the tests), where `A` does not match the labels of the selector and `B`
does, `Resolve` returns the value and the name of `A`, not of `B`. -/
theorem Resolve_select_filtered_counterexample :
    client.Matches fixture.selector.MatchLabels fixture.candidateA = false ∧
    client.Matches fixture.selector.MatchLabels fixture.candidateB = true ∧
    ControllersMustMatch (some fixture.selector) = false ∧
    (Resolve metapkg.std (NewAPIResolver (some (fixture.serving "")) {})
        { Selector := some fixture.selector,
          To := { List := some { Items := [fixture.candidateA, fixture.candidateB] } },
          Extract := some (ExternalName metapkg.std) }).outcome =
      Outcome.returned { ResolvedValue := "a-ext", ResolvedReference := some { Name := "a" } }
        none ∧
    (Resolve metapkg.std (NewAPIResolver (some (fixture.serving "")) {})
        { Selector := some fixture.selector,
          To := { List := some { Items := [fixture.candidateA, fixture.candidateB] } },
          Extract := some (ExternalName metapkg.std) }).outcome ≠
      Outcome.returned { ResolvedValue := "b-ext", ResolvedReference := some { Name := "b" } }
        none := by
  decide

/-- An instance of C9 as the code has it: a data source that holds `[A, B]` and
filters by labels. -/
theorem Resolve_select_filtered_witness :
    Resolve metapkg.std
        (NewAPIResolver (some (fixture.filtering [fixture.candidateA, fixture.candidateB])) {})
        { Selector := some fixture.selector, To := { List := some {} },
          Extract := some (ExternalName metapkg.std) } =
      { outcome := Outcome.returned
          { ResolvedValue := "b-ext", ResolvedReference := some { Name := "b" } } none,
        calls := [client.Call.list [("app", "db")]] } :=
  Resolve_select_filtered metapkg.std
    (NewAPIResolver (some (fixture.filtering [fixture.candidateA, fixture.candidateB])) {})
    { Selector := some fixture.selector, To := { List := some {} },
      Extract := some (ExternalName metapkg.std) }
    fixture.selector (fixture.filtering [fixture.candidateA, fixture.candidateB])
    fixture.candidateA fixture.candidateB (ExternalName metapkg.std)
    (by decide) (by decide) rfl rfl rfl (by decide) (by decide) (by decide) rfl rfl

/-- C10: `Resolve` returns the error `no managed resources matched selector` (a plain
error that wraps nothing) if and only if the call is on the selector path
(referencing resource not deleted, `CurrentValue` empty, `Reference` absent,
`Selector` set), `List` succeeds, and every listed candidate is skipped by the
controller-match filter, an empty list included; the response returned with it is
the empty response. -/
theorem Resolve_noMatches_iff (m : metapkg.Funcs) (r : APIResolver)
    (req : ResolutionRequest) (rsp : ResolutionResponse) :
    ((Resolve m r req).outcome =
        Outcome.returned rsp (some (errors.New "no managed resources matched selector")) ↔
      (rsp = {} ∧ m.WasDeleted r.from_ = false ∧ req.CurrentValue = "" ∧
        req.Reference = none ∧
        ∃ s c list, req.Selector = some s ∧ r.client = some c ∧
          c.List req.To.List s.MatchLabels = (none, some list) ∧
          ∀ x ∈ list.GetItems, Resolve.skips m r req x = true)) ∧
    (errors.New "no managed resources matched selector").Unwrap = none ∧
    (errors.New "no managed resources matched selector").Error =
      "no managed resources matched selector" := by
  refine ⟨⟨fun h => ?_, fun h => ?_⟩, rfl, rfl⟩
  · change (Resolve m r req).outcome =
      Outcome.returned rsp (some (errors.New errNoMatches)) at h
    cases hsc : (m.WasDeleted r.from_ || req.IsNoOp) with
    | true =>
      rw [resolve_early m r req hsc] at h
      simp at h
    | false =>
      obtain ⟨hd, hn⟩ := (not_early_iff m r req).1 hsc
      have hv := currentValue_of_not_isNoOp req hn
      unfold Resolve at h
      rw [if_neg (by rw [hsc]; exact Bool.false_ne_true)] at h
      cases hr : req.Reference with
      | some ref =>
        cases hc : r.client with
        | none => simp [hr, hc] at h
        | some c =>
          rcases hg : c.Get { Name := ref.Name } req.To.Managed with ⟨e, obj⟩
          cases e with
          | some err => simp [hr, hc, hg, errors.Wrap, errors.New] at h
          | none =>
            cases he : req.Extract with
            | none => simp [hr, hc, hg, he] at h
            | some extract =>
              simp only [hr, hc, hg, he, Outcome.returned.injEq] at h
              exact absurd h.2 (validate_ne_noMatches _)
      | none =>
        cases hs : req.Selector with
        | none => simp [hr, hs] at h
        | some s =>
          cases hc : r.client with
          | none => simp [hr, hs, hc] at h
          | some c =>
            rcases hl : c.List req.To.List s.MatchLabels with ⟨e, list⟩
            cases e with
            | some err => simp [hr, hs, hc, hl, errors.Wrap, errors.New] at h
            | none =>
              cases list with
              | none => simp [hr, hs, hc, hl] at h
              | some l =>
                simp only [hr, hs, hc, hl] at h
                obtain ⟨h1, h2⟩ := loop_noMatches_inv m r req _ rsp h
                exact ⟨h1, hd, hv, rfl, s, c, l, rfl, rfl, hl, h2⟩
  · obtain ⟨h1, hd, hv, hr, s, c, list, hs, hc, hl, hall⟩ := h
    rw [resolve_list_ok m r req s c list hd hv hr hs hc hl, h1]
    exact loop_all_skipped m r req _ hall

/-- An instance of C10: the test case `NoMatches`, where `List` succeeds with an empty
list. -/
theorem Resolve_noMatches_iff_witness :
    (Resolve metapkg.std (NewAPIResolver (some (fixture.serving "")) {})
        { Selector := some {}, To := { List := some {} } }).outcome =
      Outcome.returned {} (some (errors.New "no managed resources matched selector")) :=
  (Resolve_noMatches_iff metapkg.std (NewAPIResolver (some (fixture.serving "")) {})
      { Selector := some {}, To := { List := some {} } } {}).1.2
    ⟨rfl, by decide, by decide, rfl, {}, fixture.serving "", {}, rfl, rfl, rfl,
      fun x hx => absurd hx (List.not_mem_nil x)⟩

/-- Validation of a response with an empty resolved value yields `errNoValue`. -/
theorem validate_empty (ref : Option v1alpha1.Reference) :
    ResolutionResponse.Validate { ResolvedValue := "", ResolvedReference := ref } =
      some (errors.New errNoValue) := by
  simp [ResolutionResponse.Validate]

/-- C11: past the early return, when `Get` (direct path) or `List` (selector path)
succeeds and `Extract` of the selected target is the empty string, `Resolve` returns
the error `referenced field was empty (reference may not yet be ready)` and not a
success. On the selector path the selected target is the first listed candidate that
is not skipped. -/
theorem Resolve_empty_value (m : metapkg.Funcs) (r : APIResolver) (req : ResolutionRequest)
    (c : client.Reader) (extract : ExtractValueFn)
    (hd : m.WasDeleted r.from_ = false) (hv : req.CurrentValue = "")
    (hc : r.client = some c) (he : req.Extract = some extract)
    (h : (∃ ref obj, req.Reference = some ref ∧
            c.Get { Name := ref.Name } req.To.Managed = (none, obj) ∧ extract obj = "") ∨
         (∃ s list pre cand post, req.Reference = none ∧ req.Selector = some s ∧
            c.List req.To.List s.MatchLabels = (none, some list) ∧
            list.GetItems = pre ++ cand :: post ∧
            (∀ x ∈ pre, Resolve.skips m r req x = true) ∧
            Resolve.skips m r req cand = false ∧ extract (some cand) = "")) :
    ∃ rsp err, (Resolve m r req).outcome = Outcome.returned rsp (some err) ∧
      err = errors.New "referenced field was empty (reference may not yet be ready)" ∧
      err.Error = "referenced field was empty (reference may not yet be ready)" := by
  rcases h with ⟨ref, obj, hr, hg, hx⟩ | ⟨s, list, pre, cand, post, hr, hs, hl, hi, hpre, hcand, hx⟩
  · rw [resolve_get_ok m r req ref c obj extract hd hv hr hc hg he, hx, validate_empty]
    exact ⟨_, _, rfl, rfl, rfl⟩
  · rw [resolve_list_ok m r req s c list hd hv hr hs hc hl, hi,
      loop_skip_append m r req pre (cand :: post) hpre,
      loop_cons_selected m r req cand post extract hcand he, hx, validate_empty]
    exact ⟨_, _, rfl, rfl, rfl⟩

/-- An instance of C11: the direct path with a data source that sets an empty external
name on the fetched object. -/
theorem Resolve_empty_value_witness :
    ∃ rsp err, (Resolve metapkg.std (NewAPIResolver (some (fixture.serving "")) {})
        { Reference := some fixture.ref, To := { Managed := some {} },
          Extract := some (ExternalName metapkg.std) }).outcome =
        Outcome.returned rsp (some err) ∧
      err = errors.New "referenced field was empty (reference may not yet be ready)" ∧
      err.Error = "referenced field was empty (reference may not yet be ready)" :=
  Resolve_empty_value metapkg.std (NewAPIResolver (some (fixture.serving "")) {})
    { Reference := some fixture.ref, To := { Managed := some {} },
      Extract := some (ExternalName metapkg.std) }
    (fixture.serving "") (ExternalName metapkg.std) (by decide) (by decide) rfl rfl
    (Or.inl ⟨fixture.ref,
      some { Annotations := [(metapkg.AnnotationKeyExternalName, "")] }, rfl, rfl, by decide⟩)

/-- C12: for every string `s`, the empty string included,
`FromPtrValue (ToPtrValue s)` is `s`. -/
theorem FromPtrValue_ToPtrValue (s : String) : FromPtrValue (ToPtrValue s) = s := by
  unfold ToPtrValue
  by_cases h : s = ""
  · rw [if_pos h, h]
    rfl
  · rw [if_neg h]
    rfl

/-- C13: `ControllersMustMatch s` is true if and only if the selector is present and
its `MatchControllerRef` flag is present and true; an absent selector, an absent flag
and a false flag all give false. -/
theorem ControllersMustMatch_iff (s : Option v1alpha1.Selector) :
    (ControllersMustMatch s = true ↔
      ∃ sel, s = some sel ∧ sel.MatchControllerRef = some true) ∧
    ControllersMustMatch none = false ∧
    (∀ labels, ControllersMustMatch
      (some { MatchLabels := labels, MatchControllerRef := none }) = false) ∧
    (∀ labels, ControllersMustMatch
      (some { MatchLabels := labels, MatchControllerRef := some false }) = false) := by
  refine ⟨?_, rfl, fun _ => rfl, fun _ => rfl⟩
  cases s with
  | none => simp [ControllersMustMatch]
  | some sel =>
    cases hf : sel.MatchControllerRef with
    | none => simp [ControllersMustMatch, hf]
    | some b => cases b <;> simp [ControllersMustMatch, hf]

/-- C14: `IsNoOp` is true if and only if `CurrentValue` is non-empty or both
`Reference` and `Selector` are absent; it does not depend on `To` or `Extract`. -/
theorem IsNoOp_iff (req : ResolutionRequest) :
    (req.IsNoOp = true ↔
      req.CurrentValue ≠ "" ∨ (req.Reference = none ∧ req.Selector = none)) ∧
    (∀ (to_ : To) (extract : Option ExtractValueFn),
      ResolutionRequest.IsNoOp { req with To := to_, Extract := extract } = req.IsNoOp) := by
  refine ⟨?_, fun _ _ => rfl⟩
  unfold ResolutionRequest.IsNoOp
  by_cases h : req.CurrentValue = ""
  · cases hr : req.Reference <;> cases hs : req.Selector <;> simp [h]
  · simp [h]

/-- C15: `Validate` returns an error if and only if `ResolvedValue` is the empty
string, whatever `ResolvedReference` is. -/
theorem Validate_error_iff (rsp : ResolutionResponse) :
    ((∃ err, rsp.Validate = some err) ↔ rsp.ResolvedValue = "") ∧
    (∀ ref, ResolutionResponse.Validate { rsp with ResolvedReference := ref } =
      rsp.Validate) := by
  refine ⟨?_, fun _ => rfl⟩
  unfold ResolutionResponse.Validate
  by_cases h : rsp.ResolvedValue = "" <;> simp [h]

/-- Past the early return and with a reference set, `Resolve` is the direct path: what
it does is determined by the client, the `Get` result and `Extract`. -/
theorem resolve_direct (m : metapkg.Funcs) (r : APIResolver) (req : ResolutionRequest)
    (ref : v1alpha1.Reference)
    (hd : m.WasDeleted r.from_ = false) (hv : req.CurrentValue = "")
    (hr : req.Reference = some ref) :
    Resolve m r req =
      match r.client with
      | none => { outcome := Outcome.panicked, calls := [] }
      | some c =>
        match c.Get { Name := ref.Name } req.To.Managed with
        | (some err, _) =>
          { outcome := Outcome.returned {} (some (errors.Wrap err errGetManaged)),
            calls := [client.Call.get { Name := ref.Name }] }
        | (none, managed) =>
          match req.Extract with
          | none =>
            { outcome := Outcome.panicked, calls := [client.Call.get { Name := ref.Name }] }
          | some extract =>
            { outcome := Outcome.returned
                { ResolvedValue := extract managed, ResolvedReference := some ref }
                (ResolutionResponse.Validate
                  { ResolvedValue := extract managed, ResolvedReference := some ref }),
              calls := [client.Call.get { Name := ref.Name }] } := by
  have hn := not_isNoOp_of_reference req hv ref hr
  simp only [Resolve, hd, hn, hr, Bool.or_self, Bool.false_eq_true, if_false]

/-- On the direct path the recorded calls are at most the one `Get`. -/
theorem resolve_direct_calls (m : metapkg.Funcs) (r : APIResolver) (req : ResolutionRequest)
    (ref : v1alpha1.Reference)
    (hd : m.WasDeleted r.from_ = false) (hv : req.CurrentValue = "")
    (hr : req.Reference = some ref) :
    (Resolve m r req).calls = [] ∨
      (Resolve m r req).calls = [client.Call.get { Name := ref.Name }] := by
  rw [resolve_direct m r req ref hd hv hr]
  cases r.client with
  | none => exact Or.inl rfl
  | some c =>
    rcases hg : c.Get { Name := ref.Name } req.To.Managed with ⟨e, obj⟩
    cases e with
    | some err => exact Or.inr (by simp only [hg])
    | none =>
      cases he : req.Extract with
      | none => exact Or.inr (by simp only [hg])
      | some extract => exact Or.inr (by simp only [hg])

/-- On the selector path with a client present, the recorded calls are the one
`List`, made with the labels of the selector. -/
theorem resolve_select_calls (m : metapkg.Funcs) (r : APIResolver) (req : ResolutionRequest)
    (s : v1alpha1.Selector) (c : client.Reader)
    (hd : m.WasDeleted r.from_ = false) (hv : req.CurrentValue = "")
    (hr : req.Reference = none) (hs : req.Selector = some s) (hc : r.client = some c) :
    (Resolve m r req).calls = [client.Call.list s.MatchLabels] := by
  rcases hl : c.List req.To.List s.MatchLabels with ⟨e, list⟩
  cases e with
  | some err => rw [resolve_list_failed m r req s c err list hd hv hr hs hc hl]
  | none =>
    cases list with
    | some l => rw [resolve_list_ok m r req s c l hd hv hr hs hc hl]
    | none =>
      have hn := not_isNoOp_of_selector req hv s hs
      simp [Resolve, hd, hn, hr, hs, hc, hl]

/-- C16: past the early return, when both `Reference` and `Selector` are set, the
reference takes precedence and `Resolve` follows the direct path only. With a data
source present it makes exactly one call, the `Get` with the name of the reference,
and its outcome is that of the direct path: the wrapped error when `Get` fails, and
the extracted value with the reference of the request, validated, when `Get`
succeeds (a panic when `Extract` is unset); with no data source it panics before any
call. It gives the same result as for the request with the selector removed, and as
for any other selector; it makes no `List` call; and the result does not depend on how
the data source lists. -/
theorem Resolve_reference_precedence (m : metapkg.Funcs) (r : APIResolver)
    (req : ResolutionRequest) (ref : v1alpha1.Reference) (s : v1alpha1.Selector)
    (hd : m.WasDeleted r.from_ = false) (hv : req.CurrentValue = "")
    (hr : req.Reference = some ref) (_hs : req.Selector = some s) :
    (∀ c, r.client = some c →
      (Resolve m r req).calls = [client.Call.get { Name := ref.Name }] ∧
      (∀ E obj, c.Get { Name := ref.Name } req.To.Managed = (some E, obj) →
        (Resolve m r req).outcome =
          Outcome.returned {} (some (errors.Wrap E "cannot get managed resource"))) ∧
      (∀ obj extract, c.Get { Name := ref.Name } req.To.Managed = (none, obj) →
        req.Extract = some extract →
        (Resolve m r req).outcome =
          Outcome.returned { ResolvedValue := extract obj, ResolvedReference := some ref }
            (ResolutionResponse.Validate
              { ResolvedValue := extract obj, ResolvedReference := some ref })) ∧
      (∀ obj, c.Get { Name := ref.Name } req.To.Managed = (none, obj) →
        req.Extract = none → (Resolve m r req).outcome = Outcome.panicked)) ∧
    (r.client = none →
      Resolve m r req = { outcome := Outcome.panicked, calls := [] }) ∧
    Resolve m r req = Resolve m r { req with Selector := none } ∧
    (∀ s', Resolve m r { req with Selector := s' } = Resolve m r req) ∧
    (∀ labels, client.Call.list labels ∉ (Resolve m r req).calls) ∧
    (∀ c L, r.client = some c →
      Resolve m { r with client := some { c with List := L } } req = Resolve m r req) := by
  have hsel : ∀ s', Resolve m r { req with Selector := s' } = Resolve m r req := by
    intro s'
    rw [resolve_direct m r req ref hd hv hr,
      resolve_direct m r { req with Selector := s' } ref hd hv hr]
  refine ⟨fun c hc => ⟨?_, fun E obj hg => ?_, fun obj extract hg he => ?_,
      fun obj hg he => ?_⟩, fun hc => ?_, (hsel none).symm, hsel,
    fun labels hmem => ?_, fun c L hc => ?_⟩
  · rw [resolve_direct m r req ref hd hv hr, hc]
    rcases hg : c.Get { Name := ref.Name } req.To.Managed with ⟨e, obj⟩
    cases e with
    | some err => simp only [hg]
    | none => cases he : req.Extract <;> simp only [hg]
  · rw [resolve_get_failed m r req ref c E obj hd hv hr hc hg]
    rfl
  · rw [resolve_get_ok m r req ref c obj extract hd hv hr hc hg he]
  · rw [resolve_direct m r req ref hd hv hr, hc]
    simp only [hg, he]
  · rw [resolve_direct m r req ref hd hv hr, hc]
  · rcases resolve_direct_calls m r req ref hd hv hr with h | h
    · rw [h] at hmem
      exact absurd hmem (List.not_mem_nil _)
    · rw [h] at hmem
      simp at hmem
  · rw [resolve_direct m r req ref hd hv hr,
      resolve_direct m { r with client := some { c with List := L } } req ref hd hv hr, hc]

/-- An instance of C16: a request with the reference of the tests and a selector,
against a data source that serves `Get`: the one call is the `Get` for `cool`, the
response is the extracted value with the reference, and the result is that of the
request without the selector. -/
theorem Resolve_reference_precedence_witness :
    (Resolve metapkg.std (NewAPIResolver (some (fixture.serving "coolv")) {})
        { Reference := some fixture.ref, Selector := some fixture.selector,
          To := { Managed := some {} }, Extract := some (ExternalName metapkg.std) }).calls =
      [client.Call.get { Name := "cool" }] ∧
    (Resolve metapkg.std (NewAPIResolver (some (fixture.serving "coolv")) {})
        { Reference := some fixture.ref, Selector := some fixture.selector,
          To := { Managed := some {} }, Extract := some (ExternalName metapkg.std) }).outcome =
      Outcome.returned { ResolvedValue := "coolv", ResolvedReference := some { Name := "cool" } }
        none ∧
    Resolve metapkg.std (NewAPIResolver (some (fixture.serving "coolv")) {})
        { Reference := some fixture.ref, Selector := some fixture.selector,
          To := { Managed := some {} }, Extract := some (ExternalName metapkg.std) } =
      Resolve metapkg.std (NewAPIResolver (some (fixture.serving "coolv")) {})
        { Reference := some fixture.ref, Selector := none,
          To := { Managed := some {} }, Extract := some (ExternalName metapkg.std) } :=
  have h := Resolve_reference_precedence metapkg.std
    (NewAPIResolver (some (fixture.serving "coolv")) {})
    { Reference := some fixture.ref, Selector := some fixture.selector,
      To := { Managed := some {} }, Extract := some (ExternalName metapkg.std) }
    fixture.ref fixture.selector (by decide) (by decide) rfl rfl
  ⟨(h.1 (fixture.serving "coolv") rfl).1,
    (h.1 (fixture.serving "coolv") rfl).2.2.1
      (some { Annotations := [(metapkg.AnnotationKeyExternalName, "coolv")] })
      (ExternalName metapkg.std) rfl rfl,
    h.2.2.1⟩

/-- C17: resolution is idempotent once a value has been set. When `Resolve` returns
response `rsp` with no error and a non-empty `ResolvedValue`, then after committing it
onto the request (`CurrentValue := rsp.ResolvedValue`,
`Reference := rsp.ResolvedReference`) a further `Resolve`, by a resolver with any data
source and any referencing resource, returns `rsp` again with no error and without a
call on the data source. -/
theorem Resolve_idempotent (m : metapkg.Funcs) (r : APIResolver) (req : ResolutionRequest)
    (rsp : ResolutionResponse) (r' : APIResolver)
    (_h : (Resolve m r req).outcome = Outcome.returned rsp none)
    (hne : rsp.ResolvedValue ≠ "") :
    Resolve m r'
        { req with CurrentValue := rsp.ResolvedValue, Reference := rsp.ResolvedReference } =
      { outcome := Outcome.returned rsp none, calls := [] } := by
  have hn : ResolutionRequest.IsNoOp
      { req with CurrentValue := rsp.ResolvedValue, Reference := rsp.ResolvedReference } =
      true := isNoOp_of_currentValue _ hne
  rw [resolve_early m r' _ (by rw [hn, Bool.or_true])]

/-- An instance of C17: the test case `SuccessfulResolve`, resolved again after the
commit against a data source that now fails. -/
theorem Resolve_idempotent_witness :
    Resolve metapkg.std (NewAPIResolver (some (fixture.failing fixture.errBoom)) {})
        { CurrentValue := "coolv", Reference := some fixture.ref,
          To := { Managed := some {} }, Extract := some (ExternalName metapkg.std) } =
      { outcome := Outcome.returned
          { ResolvedValue := "coolv", ResolvedReference := some fixture.ref } none,
        calls := [] } :=
  Resolve_idempotent metapkg.std (NewAPIResolver (some (fixture.serving fixture.value)) {})
    { Reference := some fixture.ref, To := { Managed := some {} },
      Extract := some (ExternalName metapkg.std) }
    { ResolvedValue := "coolv", ResolvedReference := some fixture.ref }
    (NewAPIResolver (some (fixture.failing fixture.errBoom)) {})
    (by decide) (by decide)

/-- C18: for every optional string `p`, `ToPtrValue (FromPtrValue p)` is absent when
`p` is absent or holds the empty string, and holds the same string otherwise;
`ToPtrValue s` is absent if and only if `s` is empty, and `FromPtrValue` of an absent
pointer is the empty string. -/
theorem ToPtrValue_FromPtrValue (p : Option String) :
    ((p = none ∨ p = some "") → ToPtrValue (FromPtrValue p) = none) ∧
    (∀ s, p = some s → s ≠ "" → ToPtrValue (FromPtrValue p) = some s) ∧
    (∀ s, ToPtrValue s = none ↔ s = "") ∧
    FromPtrValue none = "" := by
  refine ⟨fun h => ?_, fun s hp hs => ?_, fun s => ?_, rfl⟩
  · rcases h with h | h <;> rw [h] <;> rfl
  · rw [hp]
    simp [FromPtrValue, ToPtrValue, hs]
  · unfold ToPtrValue
    by_cases h : s = "" <;> simp [h]

/-- C19: one call of `Resolve` performs at most one operation on the data source: none
on the early return; with a data source present, exactly one `Get` and no `List` on
the direct path, and exactly one `List` and no `Get` on the selector path. -/
theorem Resolve_calls (m : metapkg.Funcs) (r : APIResolver) (req : ResolutionRequest) :
    (Resolve m r req).calls.length ≤ 1 ∧
    (Resolve.shortCircuits m r req = true → (Resolve m r req).calls = []) ∧
    (Resolve.shortCircuits m r req = false → ∀ c, r.client = some c →
      (∀ ref, req.Reference = some ref →
        (Resolve m r req).calls = [client.Call.get { Name := ref.Name }]) ∧
      (req.Reference = none →
        ∃ s, req.Selector = some s ∧
          (Resolve m r req).calls = [client.Call.list s.MatchLabels])) := by
  have hearly : Resolve.shortCircuits m r req = true → (Resolve m r req).calls = [] := by
    intro h
    rw [resolve_early m r req h]
  have hdirect : Resolve.shortCircuits m r req = false → ∀ ref, req.Reference = some ref →
      (Resolve m r req).calls = [] ∨
        (Resolve m r req).calls = [client.Call.get { Name := ref.Name }] := by
    intro h ref hr
    obtain ⟨hd, hn⟩ := (not_early_iff m r req).1 h
    exact resolve_direct_calls m r req ref hd (currentValue_of_not_isNoOp req hn) hr
  have hsel : Resolve.shortCircuits m r req = false → req.Reference = none →
      ∃ s, req.Selector = some s := by
    intro h hr
    obtain ⟨_, hn⟩ := (not_early_iff m r req).1 h
    cases hs : req.Selector with
    | some s => exact ⟨s, rfl⟩
    | none =>
      rw [isNoOp_of_absent req hr hs] at hn
      exact Bool.noConfusion hn
  refine ⟨?_, hearly, fun h c hc => ⟨fun ref hr => ?_, fun hr => ?_⟩⟩
  · cases hsc : Resolve.shortCircuits m r req with
    | true => rw [hearly hsc]; exact Nat.zero_le 1
    | false =>
      obtain ⟨hd, hn⟩ := (not_early_iff m r req).1 hsc
      have hv := currentValue_of_not_isNoOp req hn
      cases hr : req.Reference with
      | some ref =>
        rcases hdirect hsc ref hr with h | h <;> rw [h] <;> simp
      | none =>
        obtain ⟨s, hs⟩ := hsel hsc hr
        cases hc : r.client with
        | some c =>
          rw [resolve_select_calls m r req s c hd hv hr hs hc]
          exact Nat.le_refl 1
        | none => simp [Resolve, hd, hn, hr, hs, hc]
  · obtain ⟨hd, hn⟩ := (not_early_iff m r req).1 h
    have hv := currentValue_of_not_isNoOp req hn
    rw [resolve_direct m r req ref hd hv hr, hc]
    rcases hg : c.Get { Name := ref.Name } req.To.Managed with ⟨e, obj⟩
    cases e with
    | some err => simp only [hg]
    | none => cases he : req.Extract <;> simp only [hg]
  · obtain ⟨hd, hn⟩ := (not_early_iff m r req).1 h
    have hv := currentValue_of_not_isNoOp req hn
    obtain ⟨s, hs⟩ := hsel h hr
    exact ⟨s, hs, resolve_select_calls m r req s c hd hv hr hs hc⟩

/-- With `Extract` set, the loop over the candidates returns. -/
theorem loop_returns (m : metapkg.Funcs) (r : APIResolver) (req : ResolutionRequest)
    (extract : ExtractValueFn) (he : req.Extract = some extract)
    (items : List resource.Managed) :
    ∃ rsp err, Resolve.loop m r req items = Outcome.returned rsp err := by
  induction items with
  | nil => exact ⟨_, _, rfl⟩
  | cons x rest ih =>
    cases hx : Resolve.skips m r req x with
    | false =>
      rw [loop_cons_selected m r req x rest extract hx he]
      exact ⟨_, _, rfl⟩
    | true =>
      have h := loop_skip_append m r req [x] rest
        (fun y hy => by rw [List.mem_singleton.1 hy]; exact hx)
      rw [List.singleton_append] at h
      rw [h]
      exact ih

/-- With `Extract` unset, the loop panics as soon as a candidate is not skipped. -/
theorem loop_panics (m : metapkg.Funcs) (r : APIResolver) (req : ResolutionRequest)
    (he : req.Extract = none) (items : List resource.Managed)
    (h : ∃ x ∈ items, Resolve.skips m r req x = false) :
    Resolve.loop m r req items = Outcome.panicked := by
  induction items with
  | nil =>
    obtain ⟨x, hx, _⟩ := h
    exact absurd hx (List.not_mem_nil x)
  | cons y rest ih =>
    cases hy : Resolve.skips m r req y with
    | false =>
      have hy' : ¬ ((ControllersMustMatch req.Selector &&
          !m.HaveSameController r.from_ y) = true) := by
        intro hc
        have : Resolve.skips m r req y = true := hc
        rw [hy] at this
        exact Bool.noConfusion this
      unfold Resolve.loop
      rw [if_neg hy', he]
    | true =>
      have hstep := loop_skip_append m r req [y] rest
        (fun z hz => by rw [List.mem_singleton.1 hz]; exact hy)
      rw [List.singleton_append] at hstep
      rw [hstep]
      apply ih
      obtain ⟨x, hx, hxs⟩ := h
      rcases List.mem_cons.1 hx with rfl | hx
      · rw [hy] at hxs
        exact Bool.noConfusion hxs
      · exact ⟨x, hx, hxs⟩

/-- C20, as the code has it. `Resolve` completes with a response and an optional error
on every early return; when `Get` or `List` fails, whatever `Extract` and the
placeholders are; when `List` succeeds into a list placeholder and every candidate is
skipped, or `Extract` is set; and when `Get` succeeds into a placeholder that is set
and `Extract` is set. It panics, past the early return, when the data source is
unset, when `Extract` is unset after a successful `Get` or with a candidate that is
not skipped, and when the list placeholder is unset after a successful `List`. What
happens when `Extract` is handed an unset placeholder is up to `Extract` and is not
stated. -/
theorem Resolve_completes (m : metapkg.Funcs) (r : APIResolver) (req : ResolutionRequest) :
    (Resolve.shortCircuits m r req = true →
      ∃ rsp, (Resolve m r req).outcome = Outcome.returned rsp none) ∧
    (Resolve.shortCircuits m r req = false → r.client = none →
      (Resolve m r req).outcome = Outcome.panicked) ∧
    (∀ c ref, Resolve.shortCircuits m r req = false → r.client = some c →
      req.Reference = some ref →
      (∀ E obj, c.Get { Name := ref.Name } req.To.Managed = (some E, obj) →
        ∃ rsp err, (Resolve m r req).outcome = Outcome.returned rsp (some err)) ∧
      (∀ obj, c.Get { Name := ref.Name } req.To.Managed = (none, obj) →
        req.Extract = none → (Resolve m r req).outcome = Outcome.panicked) ∧
      (∀ obj extract, c.Get { Name := ref.Name } req.To.Managed = (none, some obj) →
        req.Extract = some extract →
        ∃ rsp err, (Resolve m r req).outcome = Outcome.returned rsp err)) ∧
    (∀ c s, Resolve.shortCircuits m r req = false → r.client = some c →
      req.Reference = none → req.Selector = some s →
      (∀ E list, c.List req.To.List s.MatchLabels = (some E, list) →
        ∃ rsp err, (Resolve m r req).outcome = Outcome.returned rsp (some err)) ∧
      (c.List req.To.List s.MatchLabels = (none, none) →
        (Resolve m r req).outcome = Outcome.panicked) ∧
      (∀ list, c.List req.To.List s.MatchLabels = (none, some list) →
        (∀ x ∈ list.GetItems, Resolve.skips m r req x = true) →
        ∃ rsp err, (Resolve m r req).outcome = Outcome.returned rsp (some err)) ∧
      (∀ list, c.List req.To.List s.MatchLabels = (none, some list) →
        (∃ x ∈ list.GetItems, Resolve.skips m r req x = false) →
        req.Extract = none → (Resolve m r req).outcome = Outcome.panicked) ∧
      (∀ list extract, c.List req.To.List s.MatchLabels = (none, some list) →
        req.Extract = some extract →
        ∃ rsp err, (Resolve m r req).outcome = Outcome.returned rsp err)) := by
  refine ⟨fun hsc => ?_, fun hsc hc => ?_, fun c ref hsc hc hr => ?_,
    fun c s hsc hc hr hs => ?_⟩
  · rw [resolve_early m r req hsc]
    exact ⟨_, rfl⟩
  · obtain ⟨hd, hn⟩ := (not_early_iff m r req).1 hsc
    have hv := currentValue_of_not_isNoOp req hn
    cases hr : req.Reference with
    | some ref => rw [resolve_direct m r req ref hd hv hr, hc]
    | none =>
      cases hs : req.Selector with
      | none => simp [Resolve, hd, hn, hr, hs]
      | some s => simp [Resolve, hd, hn, hr, hs, hc]
  · obtain ⟨hd, hn⟩ := (not_early_iff m r req).1 hsc
    have hv := currentValue_of_not_isNoOp req hn
    refine ⟨fun E obj hg => ?_, fun obj hg he => ?_, fun obj extract hg he => ?_⟩
    · rw [resolve_get_failed m r req ref c E obj hd hv hr hc hg]
      exact ⟨_, _, rfl⟩
    · rw [resolve_direct m r req ref hd hv hr, hc]
      simp only [hg, he]
    · rw [resolve_get_ok m r req ref c (some obj) extract hd hv hr hc hg he]
      exact ⟨_, _, rfl⟩
  · obtain ⟨hd, hn⟩ := (not_early_iff m r req).1 hsc
    have hv := currentValue_of_not_isNoOp req hn
    refine ⟨fun E list hl => ?_, fun hl => ?_, fun list hl hall => ?_,
      fun list hl hex he => ?_, fun list extract hl he => ?_⟩
    · rw [resolve_list_failed m r req s c E list hd hv hr hs hc hl]
      exact ⟨_, _, rfl⟩
    · simp [Resolve, hd, hn, hr, hs, hc, hl]
    · rw [resolve_list_ok m r req s c list hd hv hr hs hc hl,
        loop_all_skipped m r req _ hall]
      exact ⟨_, _, rfl⟩
    · rw [resolve_list_ok m r req s c list hd hv hr hs hc hl]
      exact loop_panics m r req he _ hex
    · rw [resolve_list_ok m r req s c list hd hv hr hs hc hl]
      exact loop_returns m r req extract he _

/-- C20 fails as stated: with a reference set, a `Get` that succeeds and `Extract`
unset, `Resolve` calls the `nil` function and panics; with a selector set, a `List`
that succeeds and the list placeholder unset, `Resolve` calls `GetItems` on the `nil`
list and panics; with a selector set, a `List` that succeeds with one candidate and
`Extract` unset, `Resolve` calls the `nil` function on that candidate and panics. -/
theorem Resolve_completes_counterexample :
    (Resolve metapkg.std (NewAPIResolver (some (fixture.serving "coolv")) {})
        { Reference := some fixture.ref, To := { Managed := some {} },
          Extract := none }).outcome = Outcome.panicked ∧
    (Resolve metapkg.std (NewAPIResolver (some (fixture.serving "coolv")) {})
        { Selector := some {}, To := { List := none },
          Extract := some (ExternalName metapkg.std) }).outcome = Outcome.panicked ∧
    (Resolve metapkg.std (NewAPIResolver (some (fixture.serving "coolv")) {})
        { Selector := some {}, To := { List := some { Items := [fixture.controlled] } },
          Extract := none }).outcome = Outcome.panicked := by
  decide

/-- An instance of C20 as the code has it: the test case `ListError`, whose request
leaves `Extract` and both placeholders unset; `List` fails and `Resolve` completes,
with an error. -/
theorem Resolve_completes_witness :
    ∃ rsp err, (Resolve metapkg.std (NewAPIResolver (some (fixture.failing fixture.errBoom)) {})
        { Selector := some {} }).outcome = Outcome.returned rsp (some err) :=
  ((Resolve_completes metapkg.std (NewAPIResolver (some (fixture.failing fixture.errBoom)) {})
      { Selector := some {} }).2.2.2
    (fixture.failing fixture.errBoom) {} (by decide) rfl rfl rfl).1 fixture.errBoom none rfl

/-- On the selector path, once `List` has succeeded, the result is that of the first
listed candidate that is not skipped, whatever follows it in the list. -/
theorem resolve_select_result (m : metapkg.Funcs) (r : APIResolver) (req : ResolutionRequest)
    (s : v1alpha1.Selector) (c : client.Reader) (list : resource.ManagedList)
    (pre : List resource.Managed) (cand : resource.Managed) (post : List resource.Managed)
    (extract : ExtractValueFn)
    (hd : m.WasDeleted r.from_ = false) (hv : req.CurrentValue = "")
    (hr : req.Reference = none) (hs : req.Selector = some s) (hc : r.client = some c)
    (hl : c.List req.To.List s.MatchLabels = (none, some list))
    (hitems : list.GetItems = pre ++ cand :: post)
    (hpre : ∀ x ∈ pre, Resolve.skips m r req x = true)
    (hcand : Resolve.skips m r req cand = false)
    (he : req.Extract = some extract) :
    Resolve m r req =
      { outcome := Outcome.returned
          { ResolvedValue := extract (some cand),
            ResolvedReference := some { Name := cand.GetName } }
          (ResolutionResponse.Validate
            { ResolvedValue := extract (some cand),
              ResolvedReference := some { Name := cand.GetName } }),
        calls := [client.Call.list s.MatchLabels] } := by
  rw [resolve_list_ok m r req s c list hd hv hr hs hc hl, hitems,
    loop_skip_append m r req pre (cand :: post) hpre,
    loop_cons_selected m r req cand post extract hcand he]

/-- C21: the result of the selector path depends on the listing order. There are a
selector, a referencing resource and two candidate lists, permutations of each other
with two eligible candidates each, on which `Resolve` returns different values and
different references. For a fixed list the result is that of the first eligible
candidate, whatever candidates follow it. -/
theorem Resolve_listing_order :
    (∃ (m : metapkg.Funcs) (from_ : resource.Managed) (c : client.Reader)
       (s : v1alpha1.Selector) (extract : ExtractValueFn) (l₁ l₂ : List resource.Managed)
       (rsp₁ rsp₂ : ResolutionResponse),
      l₁.Perm l₂ ∧
      2 ≤ (l₁.filter (fun x => !Resolve.skips m (NewAPIResolver (some c) from_)
        { Selector := some s, To := { List := some { Items := l₁ } },
          Extract := some extract } x)).length ∧
      2 ≤ (l₂.filter (fun x => !Resolve.skips m (NewAPIResolver (some c) from_)
        { Selector := some s, To := { List := some { Items := l₂ } },
          Extract := some extract } x)).length ∧
      (Resolve m (NewAPIResolver (some c) from_)
        { Selector := some s, To := { List := some { Items := l₁ } },
          Extract := some extract }).outcome = Outcome.returned rsp₁ none ∧
      (Resolve m (NewAPIResolver (some c) from_)
        { Selector := some s, To := { List := some { Items := l₂ } },
          Extract := some extract }).outcome = Outcome.returned rsp₂ none ∧
      rsp₁.ResolvedValue ≠ rsp₂.ResolvedValue ∧
      rsp₁.ResolvedReference ≠ rsp₂.ResolvedReference) ∧
    (∀ (m : metapkg.Funcs) (r : APIResolver) (req : ResolutionRequest)
       (s : v1alpha1.Selector) (c : client.Reader) (list : resource.ManagedList)
       (pre : List resource.Managed) (cand : resource.Managed)
       (post : List resource.Managed) (extract : ExtractValueFn),
      m.WasDeleted r.from_ = false → req.CurrentValue = "" → req.Reference = none →
      req.Selector = some s → r.client = some c →
      c.List req.To.List s.MatchLabels = (none, some list) →
      list.GetItems = pre ++ cand :: post →
      (∀ x ∈ pre, Resolve.skips m r req x = true) →
      Resolve.skips m r req cand = false →
      req.Extract = some extract →
      (Resolve m r req).outcome =
        Outcome.returned
          { ResolvedValue := extract (some cand),
            ResolvedReference := some { Name := cand.GetName } }
          (ResolutionResponse.Validate
            { ResolvedValue := extract (some cand),
              ResolvedReference := some { Name := cand.GetName } })) := by
  constructor
  · refine ⟨metapkg.std, {}, fixture.serving "", {}, ExternalName metapkg.std,
      [fixture.candidateA, fixture.candidateB], [fixture.candidateB, fixture.candidateA],
      { ResolvedValue := "a-ext", ResolvedReference := some { Name := "a" } },
      { ResolvedValue := "b-ext", ResolvedReference := some { Name := "b" } },
      List.Perm.swap fixture.candidateB fixture.candidateA [], ?_, ?_, ?_, ?_, ?_, ?_⟩ <;>
    decide
  · intro m r req s c list pre cand post extract hd hv hr hs hc hl hitems hpre hcand he
    rw [resolve_select_result m r req s c list pre cand post extract hd hv hr hs hc hl
      hitems hpre hcand he]

/-- C22: on the selector path `Resolve` does not fall through on an empty value. When
the first listed candidate that is not skipped has an empty extracted value, `Resolve`
returns the `errNoValue` error, also when a later candidate is not skipped and has a
non-empty extracted value; that later candidate is not returned. -/
theorem Resolve_no_fallthrough (m : metapkg.Funcs) (r : APIResolver) (req : ResolutionRequest)
    (s : v1alpha1.Selector) (c : client.Reader) (list : resource.ManagedList)
    (pre : List resource.Managed) (cand : resource.Managed) (post : List resource.Managed)
    (later : resource.Managed) (extract : ExtractValueFn)
    (hd : m.WasDeleted r.from_ = false) (hv : req.CurrentValue = "")
    (hr : req.Reference = none) (hs : req.Selector = some s) (hc : r.client = some c)
    (hl : c.List req.To.List s.MatchLabels = (none, some list))
    (hitems : list.GetItems = pre ++ cand :: post)
    (hpre : ∀ x ∈ pre, Resolve.skips m r req x = true)
    (hcand : Resolve.skips m r req cand = false)
    (he : req.Extract = some extract) (hx : extract (some cand) = "")
    (_hlater : later ∈ post) (_hpass : Resolve.skips m r req later = false)
    (_hval : extract (some later) ≠ "") :
    (Resolve m r req).outcome =
        Outcome.returned
          { ResolvedValue := "", ResolvedReference := some { Name := cand.GetName } }
          (some (errors.New "referenced field was empty (reference may not yet be ready)")) ∧
      (Resolve m r req).outcome ≠
        Outcome.returned
          { ResolvedValue := extract (some later),
            ResolvedReference := some { Name := later.GetName } } none := by
  rw [resolve_select_result m r req s c list pre cand post extract hd hv hr hs hc hl
    hitems hpre hcand he, hx, validate_empty]
  refine ⟨rfl, fun h => ?_⟩
  simp at h

/-- An instance of C22: the list holds a candidate with an empty external name followed
by `controlled`, whose external name is `coolv`; controller-match is not required. -/
theorem Resolve_no_fallthrough_witness :
    (Resolve metapkg.std (NewAPIResolver (some (fixture.serving "")) {})
        { Selector := some {}, To := { List := some { Items := [{}, fixture.controlled] } },
          Extract := some (ExternalName metapkg.std) }).outcome =
        Outcome.returned { ResolvedValue := "", ResolvedReference := some { Name := "" } }
          (some (errors.New "referenced field was empty (reference may not yet be ready)")) ∧
      (Resolve metapkg.std (NewAPIResolver (some (fixture.serving "")) {})
        { Selector := some {}, To := { List := some { Items := [{}, fixture.controlled] } },
          Extract := some (ExternalName metapkg.std) }).outcome ≠
        Outcome.returned
          { ResolvedValue := ExternalName metapkg.std (some fixture.controlled),
            ResolvedReference := some { Name := fixture.controlled.GetName } } none :=
  Resolve_no_fallthrough metapkg.std (NewAPIResolver (some (fixture.serving "")) {})
    { Selector := some {}, To := { List := some { Items := [{}, fixture.controlled] } },
      Extract := some (ExternalName metapkg.std) }
    {} (fixture.serving "") { Items := [{}, fixture.controlled] } [] {} [fixture.controlled]
    fixture.controlled (ExternalName metapkg.std)
    (by decide) (by decide) rfl rfl rfl rfl rfl (fun x hx => absurd hx (List.not_mem_nil x))
    (by decide) rfl (by decide) (List.mem_singleton.2 rfl) (by decide) (by decide)

/-- An error out of `Validate` is `errNoValue`, and the response validated has an empty
resolved value. -/
theorem validate_error_inv (rsp : ResolutionResponse) (err : errors.GoError)
    (h : rsp.Validate = some err) : err = errors.New errNoValue ∧ rsp.ResolvedValue = "" := by
  unfold ResolutionResponse.Validate at h
  split at h
  · rename_i hv
    simp only [Option.some.injEq] at h
    exact ⟨h.symm, by simpa using hv⟩
  · exact Option.noConfusion h

/-- An error out of the loop is either `errNoMatches`, with the empty response and every
candidate skipped, or `errNoValue`, with the reference of the first candidate that is
not skipped and an empty resolved value. -/
theorem loop_error_inv (m : metapkg.Funcs) (r : APIResolver) (req : ResolutionRequest)
    (items : List resource.Managed) (rsp : ResolutionResponse) (err : errors.GoError)
    (h : Resolve.loop m r req items = Outcome.returned rsp (some err)) :
    (err = errors.New errNoMatches ∧ rsp = {} ∧
        ∀ x ∈ items, Resolve.skips m r req x = true) ∨
      (err = errors.New errNoValue ∧
        ∃ pre cand post, items = pre ++ cand :: post ∧
          (∀ x ∈ pre, Resolve.skips m r req x = true) ∧
          Resolve.skips m r req cand = false ∧
          rsp = { ResolvedValue := "", ResolvedReference := some { Name := cand.GetName } }) := by
  induction items with
  | nil =>
    simp only [Resolve.loop, Outcome.returned.injEq, Option.some.injEq] at h
    exact Or.inl ⟨h.2.symm, h.1.symm, fun x hx => absurd hx (List.not_mem_nil x)⟩
  | cons x rest ih =>
    unfold Resolve.loop at h
    split at h
    · rename_i hx
      rcases ih h with ⟨h1, h2, h3⟩ | ⟨h1, pre, cand, post, h2, h3, h4, h5⟩
      · refine Or.inl ⟨h1, h2, fun y hy => ?_⟩
        rcases List.mem_cons.1 hy with rfl | hy
        · exact hx
        · exact h3 y hy
      · refine Or.inr ⟨h1, x :: pre, cand, post, by rw [h2, List.cons_append], ?_, h4, h5⟩
        intro y hy
        rcases List.mem_cons.1 hy with rfl | hy
        · exact hx
        · exact h3 y hy
    · rename_i hx
      split at h
      · exact Outcome.noConfusion h
      · rename_i extract he
        simp only [Outcome.returned.injEq] at h
        obtain ⟨h1, h2⟩ := h
        obtain ⟨herr, hval⟩ := validate_error_inv _ err h2
        simp only at hval
        refine Or.inr ⟨herr, [], x, rest, rfl,
          fun y hy => absurd hy (List.not_mem_nil y), ?_, ?_⟩
        · simpa [Resolve.skips] using hx
        · rw [← h1, hval]

/-- Every error of `Resolve` is of one of four kinds, and the response next to it is the
empty response except for `errNoValue`. -/
theorem resolve_error_inv (m : metapkg.Funcs) (r : APIResolver) (req : ResolutionRequest)
    (rsp : ResolutionResponse) (err : errors.GoError)
    (h : (Resolve m r req).outcome = Outcome.returned rsp (some err)) :
    ((∃ E, err = errors.Wrap E errGetManaged) ∧ rsp = {}) ∨
    ((∃ E, err = errors.Wrap E errListManaged) ∧ rsp = {}) ∨
    (err = errors.New errNoMatches ∧ rsp = {}) ∨
    (err = errors.New errNoValue ∧ rsp.ResolvedValue = "" ∧
      ((∃ ref, req.Reference = some ref ∧ rsp.ResolvedReference = some ref) ∨
       (req.Reference = none ∧ ∃ s c list pre cand post,
          req.Selector = some s ∧ r.client = some c ∧
          c.List req.To.List s.MatchLabels = (none, some list) ∧
          list.GetItems = pre ++ cand :: post ∧
          (∀ x ∈ pre, Resolve.skips m r req x = true) ∧
          Resolve.skips m r req cand = false ∧
          rsp.ResolvedReference = some { Name := cand.GetName }))) := by
  cases hsc : (m.WasDeleted r.from_ || req.IsNoOp) with
  | true =>
    rw [resolve_early m r req hsc] at h
    simp at h
  | false =>
    obtain ⟨hd, hn⟩ := (not_early_iff m r req).1 hsc
    have hv := currentValue_of_not_isNoOp req hn
    cases hr : req.Reference with
    | some ref =>
      rw [resolve_direct m r req ref hd hv hr] at h
      cases hc : r.client with
      | none => simp [hc] at h
      | some c =>
        rcases hg : c.Get { Name := ref.Name } req.To.Managed with ⟨e, obj⟩
        cases e with
        | some E =>
          simp only [hc, hg, Outcome.returned.injEq, Option.some.injEq] at h
          exact Or.inl ⟨⟨E, h.2.symm⟩, h.1.symm⟩
        | none =>
          cases he : req.Extract with
          | none => simp [hc, hg, he] at h
          | some extract =>
            simp only [hc, hg, he, Outcome.returned.injEq] at h
            obtain ⟨h1, h2⟩ := h
            obtain ⟨herr, hval⟩ := validate_error_inv _ err h2
            simp only at hval
            refine Or.inr (Or.inr (Or.inr ⟨herr, ?_, Or.inl ⟨ref, rfl, ?_⟩⟩))
            · rw [← h1]
              exact hval
            · rw [← h1]
    | none =>
      cases hs : req.Selector with
      | none =>
        rw [isNoOp_of_absent req hr hs] at hn
        exact Bool.noConfusion hn
      | some s =>
        cases hc : r.client with
        | none => simp [Resolve, hd, hn, hr, hs, hc] at h
        | some c =>
          rcases hl : c.List req.To.List s.MatchLabels with ⟨e, list⟩
          cases e with
          | some E =>
            rw [resolve_list_failed m r req s c E list hd hv hr hs hc hl] at h
            simp only [Outcome.returned.injEq, Option.some.injEq] at h
            exact Or.inr (Or.inl ⟨⟨E, h.2.symm⟩, h.1.symm⟩)
          | none =>
            cases list with
            | none => simp [Resolve, hd, hn, hr, hs, hc, hl] at h
            | some l =>
              rw [resolve_list_ok m r req s c l hd hv hr hs hc hl] at h
              rcases loop_error_inv m r req _ rsp err h with
                ⟨h1, h2, _⟩ | ⟨h1, pre, cand, post, h2, h3, h4, h5⟩
              · exact Or.inr (Or.inr (Or.inl ⟨h1, h2⟩))
              · refine Or.inr (Or.inr (Or.inr ⟨h1, by rw [h5], Or.inr ⟨rfl, s, c, l, pre,
                  cand, post, rfl, rfl, hl, h2, h3, h4, by rw [h5]⟩⟩))

/-- C23: when `Resolve` fails with the wrapped `Get` error, the wrapped `List` error or
the `errNoMatches` error, the response next to the error is the empty response; when
it fails with the `errNoValue` error the response is not the empty response: its
`ResolvedValue` is empty and its `ResolvedReference` is present, the reference of the
request on the direct path and a reference named after the selected candidate on the
selector path. -/
theorem Resolve_error_response (m : metapkg.Funcs) (r : APIResolver)
    (req : ResolutionRequest) (rsp : ResolutionResponse) (err : errors.GoError)
    (h : (Resolve m r req).outcome = Outcome.returned rsp (some err)) :
    (((∃ E, err = errors.Wrap E "cannot get managed resource") ∨
        (∃ E, err = errors.Wrap E "cannot list managed resources") ∨
        err = errors.New "no managed resources matched selector") → rsp = {}) ∧
    (err = errors.New "referenced field was empty (reference may not yet be ready)" →
      rsp ≠ {} ∧ rsp.ResolvedValue = "" ∧
      ((∃ ref, req.Reference = some ref ∧ rsp.ResolvedReference = some ref) ∨
       (req.Reference = none ∧ ∃ s c list pre cand post,
          req.Selector = some s ∧ r.client = some c ∧
          c.List req.To.List s.MatchLabels = (none, some list) ∧
          list.GetItems = pre ++ cand :: post ∧
          (∀ x ∈ pre, Resolve.skips m r req x = true) ∧
          Resolve.skips m r req cand = false ∧
          rsp.ResolvedReference = some { Name := cand.GetName }))) := by
  have hne : errNoValue ≠ errNoMatches := by decide
  rcases resolve_error_inv m r req rsp err h with
    ⟨_, h2⟩ | ⟨_, h2⟩ | ⟨_, h2⟩ | ⟨h1, h2, h3⟩
  · refine ⟨fun _ => h2, fun he => ?_⟩
    rename_i hw
    obtain ⟨E, hE⟩ := hw
    rw [hE] at he
    simp [errors.Wrap, errors.New] at he
  · refine ⟨fun _ => h2, fun he => ?_⟩
    rename_i hw
    obtain ⟨E, hE⟩ := hw
    rw [hE] at he
    simp [errors.Wrap, errors.New] at he
  · refine ⟨fun _ => h2, fun he => ?_⟩
    rename_i hw
    rw [hw] at he
    have : errNoMatches = "referenced field was empty (reference may not yet be ready)" := by
      simpa [errors.New] using he
    exact absurd this.symm hne
  · refine ⟨fun hk => ?_, fun _ => ⟨fun hz => ?_, h2, h3⟩⟩
    · rcases hk with ⟨E, hE⟩ | ⟨E, hE⟩ | hE
      · rw [hE] at h1
        simp [errors.Wrap, errors.New] at h1
      · rw [hE] at h1
        simp [errors.Wrap, errors.New] at h1
      · rw [hE] at h1
        have : "no managed resources matched selector" = errNoValue := by
          simpa [errors.New] using h1
        exact absurd this.symm hne
    · rw [hz] at h3
      rcases h3 with ⟨ref, _, h4⟩ | ⟨_, s, c, list, pre, cand, post, _, _, _, _, _, _, h4⟩ <;>
        exact Option.noConfusion h4

/-- An instance of C23: the direct path with a data source that sets an empty external
name fails with `errNoValue`, and the response keeps the reference of the request. -/
theorem Resolve_error_response_witness :
    (Resolve metapkg.std (NewAPIResolver (some (fixture.serving "")) {})
        { Reference := some fixture.ref, To := { Managed := some {} },
          Extract := some (ExternalName metapkg.std) }).outcome =
      Outcome.returned { ResolvedValue := "", ResolvedReference := some fixture.ref }
        (some (errors.New "referenced field was empty (reference may not yet be ready)")) ∧
    ({ ResolvedValue := "", ResolvedReference := some fixture.ref } : ResolutionResponse) ≠ {} :=
  ⟨by decide,
    ((Resolve_error_response metapkg.std (NewAPIResolver (some (fixture.serving "")) {})
      { Reference := some fixture.ref, To := { Managed := some {} },
        Extract := some (ExternalName metapkg.std) }
      { ResolvedValue := "", ResolvedReference := some fixture.ref }
      (errors.New "referenced field was empty (reference may not yet be ready)")
      (by decide)).2 rfl).1⟩

end reference

/-! ## Properties of `validation` -/

namespace validation

/-- A chain whose first validator fails returns what that validator returns. -/
theorem chain_cons_error {T : Type} (v : Validator T) (vs : Chain T) (x : T)
    (err : errors.GoError) (h : (v.Validate x).1 = some err) :
    Chain.Validate (v :: vs) x = v.Validate x := by
  rcases hv : v.Validate x with ⟨e, y⟩
  rw [hv] at h
  simp only at h
  subst h
  simp only [Chain.Validate, hv]

/-- A chain whose first validator passes goes on with the rest, on the input as that
validator left it. -/
theorem chain_cons_ok {T : Type} (v : Validator T) (vs : Chain T) (x : T)
    (h : (v.Validate x).1 = none) :
    Chain.Validate (v :: vs) x = Chain.Validate vs (v.Validate x).2 := by
  rcases hv : v.Validate x with ⟨e, y⟩
  rw [hv] at h
  simp only at h
  subst h
  simp only [Chain.Validate, hv]

/-- A chain that fails on a prefix returns what the prefix returns. -/
theorem chain_append_error {T : Type} (pre post : Chain T) (x : T) (err : errors.GoError)
    (h : (Chain.Validate pre x).1 = some err) :
    Chain.Validate (pre ++ post) x = Chain.Validate pre x := by
  induction pre generalizing x with
  | nil => simp [Chain.Validate] at h
  | cons v pre ih =>
    rw [List.cons_append]
    cases hv : (v.Validate x).1 with
    | some e =>
      rw [chain_cons_error v (pre ++ post) x e hv, chain_cons_error v pre x e hv]
    | none =>
      rw [chain_cons_ok v pre x hv] at h
      rw [chain_cons_ok v (pre ++ post) x hv, chain_cons_ok v pre x hv]
      exact ih _ h

/-- A chain that passes on a prefix goes on with the rest, on the input as the prefix
left it. -/
theorem chain_append_ok {T : Type} (pre post : Chain T) (x : T)
    (h : (Chain.Validate pre x).1 = none) :
    Chain.Validate (pre ++ post) x = Chain.Validate post (Chain.Validate pre x).2 := by
  induction pre generalizing x with
  | nil => rfl
  | cons v pre ih =>
    rw [List.cons_append]
    cases hv : (v.Validate x).1 with
    | some e =>
      rw [chain_cons_error v pre x e hv, hv] at h
      exact Option.noConfusion h
    | none =>
      rw [chain_cons_ok v pre x hv] at h
      rw [chain_cons_ok v (pre ++ post) x hv, chain_cons_ok v pre x hv]
      exact ih _ h

/-- C24: `Chain.Validate` runs the validators in order, each on the input as the ones
before it left it, and returns at the first validator that fails, with its error and
the input as that validator left it, so that no later validator is run; it returns no
error if and only if every validator of the chain returns no error when its turn
comes; the empty chain returns no error. -/
theorem Chain_Validate_first_error {T : Type} (vs : Chain T) (x : T) :
    Chain.Validate ([] : Chain T) x = (none, x) ∧
    (∀ pre v post err, vs = pre ++ v :: post →
      (Chain.Validate pre x).1 = none →
      (v.Validate (Chain.Validate pre x).2).1 = some err →
      Chain.Validate vs x = v.Validate (Chain.Validate pre x).2) ∧
    ((Chain.Validate vs x).1 = none ↔
      ∀ pre v post, vs = pre ++ v :: post →
        (Chain.Validate pre x).1 = none ∧
          (v.Validate (Chain.Validate pre x).2).1 = none) := by
  refine ⟨rfl, ?_, ?_, ?_⟩
  · intro pre v post err hvs hpre hv
    rw [hvs, chain_append_ok pre (v :: post) x hpre, chain_cons_error v post _ err hv]
  · intro h pre v post hvs
    rw [hvs] at h
    cases hpre : (Chain.Validate pre x).1 with
    | some e =>
      rw [chain_append_error pre (v :: post) x e hpre, hpre] at h
      exact Option.noConfusion h
    | none =>
      refine ⟨rfl, ?_⟩
      rw [chain_append_ok pre (v :: post) x hpre] at h
      cases hv : (v.Validate (Chain.Validate pre x).2).1 with
      | some e =>
        rw [chain_cons_error v post _ e hv, hv] at h
        exact Option.noConfusion h
      | none => rfl
  · intro h
    induction vs generalizing x with
    | nil => rfl
    | cons v rest ih =>
      have hv : (v.Validate x).1 = none := (h [] v rest rfl).2
      rw [chain_cons_ok v rest x hv]
      apply ih
      intro pre w post hrest
      have hw := h (v :: pre) w post (by rw [hrest, List.cons_append])
      rw [chain_cons_ok v pre x hv] at hw
      exact hw

/-- The loop over no required name does nothing. -/
theorem range_nil {σ : Type} (visit : String → σ → Option errors.GoError × σ) (o : σ) :
    mockRequiredFieldsSchemaProps.range visit [] o = (none, o) := rfl

/-- The loop returns at a first name whose visit fails. -/
theorem range_cons_error {σ : Type} (visit : String → σ → Option errors.GoError × σ)
    (s : String) (rest : List String) (o : σ) (err : errors.GoError)
    (h : (visit s o).1 = some err) :
    mockRequiredFieldsSchemaProps.range visit (s :: rest) o = visit s o := by
  rcases hv : visit s o with ⟨e, y⟩
  rw [hv] at h
  simp only at h
  subst h
  simp only [mockRequiredFieldsSchemaProps.range, hv]

/-- The loop goes on past a first name whose visit passes. -/
theorem range_cons_ok {σ : Type} (visit : String → σ → Option errors.GoError × σ)
    (s : String) (rest : List String) (o : σ) (h : (visit s o).1 = none) :
    mockRequiredFieldsSchemaProps.range visit (s :: rest) o =
      mockRequiredFieldsSchemaProps.range visit rest (visit s o).2 := by
  rcases hv : visit s o with ⟨e, y⟩
  rw [hv] at h
  simp only at h
  subst h
  simp only [mockRequiredFieldsSchemaProps.range, hv]

/-- The loop depends on the visits of the listed names only. -/
theorem range_congr {σ : Type} (visit visit' : String → σ → Option errors.GoError × σ)
    (required : List String) (h : ∀ s ∈ required, ∀ o, visit s o = visit' s o) (o : σ) :
    mockRequiredFieldsSchemaProps.range visit required o =
      mockRequiredFieldsSchemaProps.range visit' required o := by
  induction required generalizing o with
  | nil => rfl
  | cons s rest ih =>
    have hs := h s (List.mem_cons_self s rest) o
    have hrest : ∀ t ∈ rest, ∀ o, visit t o = visit' t o :=
      fun t ht => h t (List.mem_cons_of_mem s ht)
    cases hv : (visit s o).1 with
    | some e =>
      rw [range_cons_error visit s rest o e hv,
        range_cons_error visit' s rest o e (by rw [← hs]; exact hv), hs]
    | none =>
      rw [range_cons_ok visit s rest o hv,
        range_cons_ok visit' s rest o (by rw [← hs]; exact hv), hs]
      exact ih hrest _

/-- The `switch` on an object schema is the loop over its required names. -/
theorem switch_object {σ : Type} (pv : fieldpath.Paved σ) (d : Option apiextensions.JSON)
    (required : List String) (properties : String → apiextensions.JSONSchemaProps)
    (o : σ) (path : String) :
    mockRequiredFieldsSchemaProps.switch pv
        (apiextensions.JSONSchemaProps.mk "object" d required properties) o path =
      mockRequiredFieldsSchemaProps.range
        (fun s o' => mockRequiredFieldsSchemaProps.switch pv (properties s) o'
          (mockRequiredFieldsSchemaProps.childPath path s))
        required o := by
  simp [mockRequiredFieldsSchemaProps.switch]

/-- Schemas that agree on what is required are filled in the same way. -/
theorem switch_agree {σ : Type} (pv : fieldpath.Paved σ)
    (p p' : apiextensions.JSONSchemaProps) (h : AgreeOnRequired p p') :
    ∀ (o : σ) (path : String),
      mockRequiredFieldsSchemaProps.switch pv p o path =
        mockRequiredFieldsSchemaProps.switch pv p' o path := by
  induction h with
  | zero => intro o path; rfl
  | mk t d required properties properties' _ ih =>
    intro o path
    by_cases ht : t = "object"
    · subst ht
      rw [switch_object, switch_object]
      exact range_congr _ _ required (fun s hs o' => ih s hs o' _) o
    · simp [mockRequiredFieldsSchemaProps.switch, ht]

/-- The cutset `"."` of the trimming holds the dot only. -/
theorem dot_cutset (c : Char) : (".".data.contains c) = true ↔ c = '.' := by
  have h : ".".data = ['.'] := rfl
  rw [h]
  simp

/-- The child path is the joined path without its leading dots. -/
theorem childPath_eq (path s : String) :
    mockRequiredFieldsSchemaProps.childPath path s =
      strings.TrimLeft (path ++ "." ++ s) "." := rfl

/-- The child path never starts with a dot. -/
theorem childPath_no_leading_dot (path s : String) :
    (mockRequiredFieldsSchemaProps.childPath path s).data.head? ≠ some '.' := by
  intro h
  have hd := List.head?_dropWhile_not (fun c => ".".data.contains c) (path ++ "." ++ s).data
  rw [childPath_eq] at h
  unfold strings.TrimLeft at h
  simp only at h
  rw [h] at hd
  simp only at hd
  exact absurd ((dot_cutset '.').2 rfl) (by rw [hd]; exact Bool.false_ne_true)

/-- At the root (empty path) the child path of a name with no leading dot is the
name. -/
theorem childPath_root (s : String) (hs : s.data.head? ≠ some '.') :
    mockRequiredFieldsSchemaProps.childPath "" s = s := by
  rw [childPath_eq]
  unfold strings.TrimLeft
  have hdata : ("" ++ "." ++ s).data = '.' :: s.data := by
    simp [String.data_append]
  rw [hdata, List.dropWhile_cons_of_pos ((dot_cutset '.').2 rfl)]
  have hrest : s.data.dropWhile (fun c => ".".data.contains c) = s.data := by
    cases hsd : s.data with
    | nil => rfl
    | cons c cs =>
      have hc : c ≠ '.' := by
        intro hc
        rw [hsd, hc] at hs
        exact hs rfl
      have hneg : ¬ ((fun c => ".".data.contains c) c = true) := fun h =>
        hc ((dot_cutset c).1 h)
      rw [List.dropWhile_cons_of_neg hneg]
  rw [hrest]

/-- Below a non-empty path with no leading dot the child path is the path, a dot and
the name. -/
theorem childPath_nested (path s : String) (hne : path ≠ "")
    (hp : path.data.head? ≠ some '.') :
    mockRequiredFieldsSchemaProps.childPath path s = path ++ "." ++ s := by
  rw [childPath_eq]
  unfold strings.TrimLeft
  cases hpd : path.data with
  | nil =>
    exfalso
    apply hne
    cases path
    simp only at hpd
    subst hpd
    rfl
  | cons c cs =>
    have hc : c ≠ '.' := by
      intro hc
      rw [hpd, hc] at hp
      exact hp rfl
    have hneg : ¬ ((fun c => ".".data.contains c) c = true) := fun h =>
      hc ((dot_cutset c).1 h)
    have hdata : (path ++ "." ++ s).data = c :: (cs ++ ".".data ++ s.data) := by
      simp [String.data_append, hpd]
    rw [hdata, List.dropWhile_cons_of_neg hneg, ← hdata]

/-- A worked chain: the second of three validators fails; the first two have run, the
third has not, and the error is that of the second. -/
theorem chain_worked :
    Chain.Validate
        [fixture.named "v1" none, fixture.named "v2" (some (errors.New "boom")),
          fixture.named "v3" none] [] =
      (some (errors.New "boom"), ["v1", "v2"]) := by
  decide

/-- A worked schema: the required string `a` and the required integer `b.n` are set,
the property `c`, which is not required, is not. -/
theorem mock_worked :
    mockRequiredFieldsSchemaProps fixture.recording (some fixture.nested) [] "" =
      (none,
        [("a", apiextensions.JSON.string "default"), ("b.n", apiextensions.JSON.float64 1)]) := by
  decide

/-- C25, as the code has it: on a `nil` schema `mockRequiredFieldsSchemaProps` returns
no error and sets nothing. With no default it sets the string `default` on a string
schema and the number `1` on an integer schema, and sets nothing on a number schema;
on a schema of any other type but `object` (`array`, unknown) it sets nothing. On an
object schema it visits the properties named in `Required`, in order, each at the
child path, and returns at the first visit that returns an error, leaving the names
after it unvisited. Schemas that differ only in properties that are not required, at
any depth, are filled in the same way. The child path has no leading dot: it is the
name at the root and the path, a dot and the name below it. -/
theorem mockRequiredFieldsSchemaProps_visits {σ : Type} (pv : fieldpath.Paved σ) (o : σ)
    (path : String) :
    mockRequiredFieldsSchemaProps pv none o path = (none, o) ∧
    (∀ required properties,
      mockRequiredFieldsSchemaProps pv
        (some (apiextensions.JSONSchemaProps.mk "string" none required properties)) o path =
        pv.SetString o path "default") ∧
    (∀ required properties,
      mockRequiredFieldsSchemaProps pv
        (some (apiextensions.JSONSchemaProps.mk "integer" none required properties)) o path =
        pv.SetNumber o path 1) ∧
    (∀ required properties,
      mockRequiredFieldsSchemaProps pv
        (some (apiextensions.JSONSchemaProps.mk "number" none required properties)) o path =
        (none, o)) ∧
    (∀ t d required properties,
      t ≠ "string" → t ≠ "integer" → t ≠ "number" → t ≠ "object" →
      mockRequiredFieldsSchemaProps pv
        (some (apiextensions.JSONSchemaProps.mk t d required properties)) o path = (none, o)) ∧
    (∀ d properties,
      mockRequiredFieldsSchemaProps pv
        (some (apiextensions.JSONSchemaProps.mk "object" d [] properties)) o path = (none, o)) ∧
    (∀ d s rest properties err,
      (mockRequiredFieldsSchemaProps pv (some (properties s)) o
        (mockRequiredFieldsSchemaProps.childPath path s)).1 = some err →
      mockRequiredFieldsSchemaProps pv
        (some (apiextensions.JSONSchemaProps.mk "object" d (s :: rest) properties)) o path =
        mockRequiredFieldsSchemaProps pv (some (properties s)) o
          (mockRequiredFieldsSchemaProps.childPath path s)) ∧
    (∀ d s rest properties,
      (mockRequiredFieldsSchemaProps pv (some (properties s)) o
        (mockRequiredFieldsSchemaProps.childPath path s)).1 = none →
      mockRequiredFieldsSchemaProps pv
        (some (apiextensions.JSONSchemaProps.mk "object" d (s :: rest) properties)) o path =
        mockRequiredFieldsSchemaProps pv
          (some (apiextensions.JSONSchemaProps.mk "object" d rest properties))
          (mockRequiredFieldsSchemaProps pv (some (properties s)) o
            (mockRequiredFieldsSchemaProps.childPath path s)).2 path) ∧
    (∀ p p', AgreeOnRequired p p' →
      mockRequiredFieldsSchemaProps pv (some p) o path =
        mockRequiredFieldsSchemaProps pv (some p') o path) ∧
    (∀ s,
      (mockRequiredFieldsSchemaProps.childPath path s).data.head? ≠ some '.' ∧
      (path = "" → s.data.head? ≠ some '.' →
        mockRequiredFieldsSchemaProps.childPath path s = s) ∧
      (path ≠ "" → path.data.head? ≠ some '.' →
        mockRequiredFieldsSchemaProps.childPath path s = path ++ "." ++ s)) := by
  refine ⟨rfl, ?_, ?_, ?_, ?_, ?_, ?_, ?_, ?_, ?_⟩
  · intro required properties
    simp [mockRequiredFieldsSchemaProps, mockRequiredFieldsSchemaProps.switch,
      setTypeDefaultValue]
  · intro required properties
    simp [mockRequiredFieldsSchemaProps, mockRequiredFieldsSchemaProps.switch,
      setTypeDefaultValue]
  · intro required properties
    simp [mockRequiredFieldsSchemaProps, mockRequiredFieldsSchemaProps.switch,
      setTypeDefaultValue]
  · intro t d required properties h1 h2 h3 h4
    simp [mockRequiredFieldsSchemaProps, mockRequiredFieldsSchemaProps.switch, h1, h2, h3, h4]
  · intro d properties
    simp only [mockRequiredFieldsSchemaProps]
    rw [switch_object, range_nil]
  · intro d s rest properties err h
    simp only [mockRequiredFieldsSchemaProps] at h ⊢
    rw [switch_object, range_cons_error _ s rest o err h]
  · intro d s rest properties h
    simp only [mockRequiredFieldsSchemaProps] at h ⊢
    rw [switch_object, range_cons_ok _ s rest o h, switch_object]
  · intro p p' h
    simp only [mockRequiredFieldsSchemaProps]
    exact switch_agree pv p p' h o path
  · intro s
    refine ⟨childPath_no_leading_dot path s, fun hp hs => ?_, childPath_nested path s⟩
    rw [hp]
    exact childPath_root s hs

/-- C25 fails as stated: the schema requires `a` and `b`; `a` is a string whose
default is a number, so its visit returns an error and the loop returns; `b`, a
required string with no default, is never visited and is not set. -/
theorem mockRequiredFieldsSchemaProps_visits_counterexample :
    mockRequiredFieldsSchemaProps fixture.recording (some fixture.badDefault) [] "" =
      (some (fmt.Errorf "default value for a is not a string"), []) ∧
    ("b", apiextensions.JSON.string "default") ∉
      (mockRequiredFieldsSchemaProps fixture.recording (some fixture.badDefault) [] "").2 ∧
    mockRequiredFieldsSchemaProps fixture.recording (some (fixture.leaf "string")) [] "b" =
      (none, [("b", apiextensions.JSON.string "default")]) := by
  decide

end validation
